import Mathlib

/-! # PinataPipe: the upload/retry engine, its strategies and the progress reporter

A shallow embedding of `logger.cpp`, `ipfs_client.hpp` and `ipfs_client.cpp`.

Modelling conventions.

* The program is single threaded here; the mutexes are not modelled.
* A finite C++ `double` is the rational number it stands for (`ℚ`; the two
  zeros are one value). Every arithmetic operation on doubles, and every
  conversion of an integer to a double, rounds its exact result to the nearest
  binary64 number, ties to even (`Double.round`). NaN, the infinities and
  overflow are not modelled.
* Everything the program does to the outside (a line on stderr, a call of the
  registered progress callback, a request handed to libcurl, a sleep) is
  appended to an event trace, in program order.
* libcurl, jsoncpp, the file system and the steady clock are collaborators
  outside the repository: they are the fields of `Env`.
-/

namespace PinataPipe

/-! ## The arithmetic of `double` -/

namespace Double

/-- The integer nearest to `m`; of the two nearest ones the even one when `m`
lies halfway between them. -/
def roundHalfEven (m : ℚ) : ℤ :=
  if m - ⌊m⌋ < 1 / 2 then ⌊m⌋
  else if 1 / 2 < m - ⌊m⌋ then ⌊m⌋ + 1
  else if ⌊m⌋ % 2 = 0 then ⌊m⌋ else ⌊m⌋ + 1

/-- The exponent of the spacing of the binary64 numbers around `y`: a number
with `2 ^ e ≤ |y| < 2 ^ (e + 1)` has 53 significant bits, so its neighbours are
`2 ^ (e - 52)` apart; below `2 ^ (-1022)` (subnormal numbers) the spacing stays
`2 ^ (-1074)`. -/
def ulpExponent (y : ℚ) : ℤ :=
  max (Int.log 2 |y|) (-1022) - 52

/-- The binary64 number nearest to `y`, ties to even: the rounding every
operation on doubles applies to its exact result. Overflow to an infinity (for
`|y|` of about `1.8e308` and more) is left out. -/
def round (y : ℚ) : ℚ :=
  roundHalfEven (y / 2 ^ ulpExponent y) * 2 ^ ulpExponent y

/-- The sum `x + y` of two doubles. -/
def add (x y : ℚ) : ℚ := round (x + y)

/-- The product `x * y` of two doubles. -/
def mul (x y : ℚ) : ℚ := round (x * y)

/-- The quotient `x / y` of two doubles, `y` not zero. -/
def div (x y : ℚ) : ℚ := round (x / y)

/-- The conversion of an integer to `double`. -/
def ofInt (n : ℤ) : ℚ := round n

end Double

/-! ## logger.hpp / logger.cpp -/

/-- The enum `LogLevel` of `logger.hpp`. -/
inductive LogLevel where
  | INFO
  | ERROR
  deriving DecidableEq, Repr

/-- One call of the registered progress callback: `progressCallback(percent, speed, eta)`. -/
structure Sample where
  percent : ℚ
  speed : ℚ
  eta : ℚ
  deriving DecidableEq, Repr

/-- One part of a multipart body built with `curl_mime_addpart`: its name
(`curl_mime_name`), the file it streams (`curl_mime_filedata`), the file name it
announces (`curl_mime_filename`) and its literal content (`curl_mime_data`). -/
structure MimePart where
  name : String
  filedata : Option String
  filename : Option String
  data : Option String
  deriving DecidableEq, Repr

/-- The request kind `performCURLRequest` configures: `CURLOPT_MIMEPOST`,
`CURLOPT_CUSTOMREQUEST "DELETE"` or `CURLOPT_HTTPGET`. -/
inductive HttpVerb where
  | MIMEPOST
  | DELETE
  | HTTPGET
  deriving DecidableEq, Repr

/-- The options set on the curl handle when `curl_easy_perform` is called. -/
structure Request where
  url : String
  headers : List String
  verb : HttpVerb
  mime : Option (List MimePart)
  noProgress : Bool
  deriving DecidableEq, Repr

/-- Everything the program does to the outside world, in program order. -/
inductive Event where
  | log (level : LogLevel) (message : String)
  | progress (sample : Sample)
  | request (r : Request)
  | sleep (seconds : Int)
  deriving DecidableEq, Repr

/-- The static data members of `Logger`. `progressCallback` records whether the
`std::function` holds a callable (`true`) or is empty (`false`); the calls made
to it are `Event.progress` entries of the trace. -/
structure Logger where
  verboseMode : Bool
  progressCallback : Bool
  lastProgress : ℚ
  progressComplete : Bool
  lastUpdateTime : ℚ
  lastUploadedBytes : ℚ
  deriving DecidableEq, Repr

/-- The static initialisers at the top of `logger.cpp`; `now` is the steady-clock
reading taken at start-up. -/
def Logger.initial (now : ℚ) : Logger where
  verboseMode := false
  progressCallback := false
  lastProgress := -1
  progressComplete := false
  lastUpdateTime := now
  lastUploadedBytes := 0

/-- The function `Logger::log`: the line is printed when `!verbose || verboseMode`. The
timestamp and colour codes put in front of the message are left out. -/
def Logger.log (L : Logger) (level : LogLevel) (message : String) (verbose : Bool) : List Event :=
  if !verbose || L.verboseMode then [Event.log level message] else []

/-- The function `Logger::setProgressCallback`; `cb` tells whether the callable passed is non-empty. -/
def Logger.setProgressCallback (L : Logger) (cb : Bool) : Logger :=
  { L with progressCallback := cb }

/-- The function `Logger::reportProgress`: the new static state and the sample handed to the
callback, if any. The sum `lastProgress + 1.0` is a sum of doubles. -/
def Logger.reportProgress (L : Logger) (percent speed eta : ℚ) : Logger × Option Sample :=
  if L.progressCallback = true ∧ L.verboseMode = true ∧ percent ≥ 0 ∧ percent ≤ 100
      ∧ L.progressComplete = false then
    if L.lastProgress < 0 ∨ percent ≥ Double.add L.lastProgress 1 ∨ percent = 100 then
      ({ L with
          lastProgress := percent
          progressComplete := if percent = 100 then true else L.progressComplete },
        some ⟨percent, speed, eta⟩)
    else (L, none)
  else (L, none)

/-- The function `Logger::resetProgress`; `now` is the steady-clock reading. -/
def Logger.resetProgress (L : Logger) (now : ℚ) : Logger :=
  { L with
    lastProgress := -1
    progressComplete := false
    lastUpdateTime := now
    lastUploadedBytes := 0 }

/-- A run of `reportProgress` calls, one per sample of the list, in order: the
final state and the samples handed to the callback, in order. -/
def Logger.reportAll : Logger → List Sample → Logger × List Sample
  | L, [] => (L, [])
  | L, x :: xs =>
    let r := L.reportProgress x.percent x.speed x.eta
    let rest := Logger.reportAll r.1 xs
    (rest.1, r.2.toList ++ rest.2)

/-- The condition under which a sample is handed to the callback, as the
specification words it: a sink is registered, verbose mode is on, the percent is
within `[0, 100]`, the operation is not marked complete, and `lastProgress` is
unset (negative, as after `resetProgress`) or the percent is at least
`lastProgress + 1` or is `100`. The program's numbers are doubles, and so is the
sum `lastProgress + 1`: it is the double nearest to the exact sum. -/
def Logger.emits (L : Logger) (percent : ℚ) : Prop :=
  L.progressCallback = true ∧ L.verboseMode = true ∧ 0 ≤ percent ∧ percent ≤ 100
    ∧ L.progressComplete = false
    ∧ (L.lastProgress < 0 ∨ percent ≥ Double.add L.lastProgress 1 ∨ percent = 100)

/-! ## config.hpp -/

/-- The two credentials of `Config`. -/
structure Config where
  pinataApiKey : String
  pinataSecret : String
  deriving DecidableEq, Repr

/-- The constant `Config::PINATA_URL`. -/
def Config.PINATA_URL : String := "https://api.pinata.cloud/"

/-- The constant `Config::IPFS_GATEWAY`. -/
def Config.IPFS_GATEWAY : String := "https://ipfs.io/ipfs/"

/-! ## The collaborators outside the repository -/

/-- One call of the transfer-progress function by libcurl during a transfer:
its four counters (`curl_off_t`; libcurl reports counts that are not negative)
and the steady-clock reading at the call. -/
structure ProgressTick where
  dltotal : Int
  dlnow : Int
  ultotal : Int
  ulnow : Int
  now : ℚ
  deriving DecidableEq, Repr

/-- What one `curl_easy_perform` does: the progress ticks it delivers (when
progress is switched on), its `CURLcode` (`0` is `CURLE_OK`) and the bytes it
hands to `writeCallback`, concatenated. -/
structure CurlOutcome where
  ticks : List ProgressTick
  code : Nat
  response : String
  deriving DecidableEq, Repr

/-- The collaborators of the client. `J` is `Json::Value`.

* `config`: the credentials the client was built with;
* `fsExists`, `fsFilename`: `fs::exists(p)` and `fs::path(p).filename().string()`;
* `steadyNow n`: the steady-clock reading when the trace holds `n` events;
* `curlPerform n r`: what `curl_easy_perform` does for request `r` when `n`
  requests were performed before it; `curlStrerror`: `curl_easy_strerror`;
* `jsonParse`: `CharReader::parse`, with the text of `errors` on failure;
* `isMember j k`: `j.isMember(k)`; `getAsString j k d`: `j.get(k, d).asString()`;
  `writeString`: `Json::writeString` with a default `StreamWriterBuilder`.

The functions are total: a transfer always comes back, and a call on which the
JSON library would throw is outside the model. -/
structure Env (J : Type) where
  config : Config
  fsExists : String → Bool
  fsFilename : String → String
  steadyNow : Nat → ℚ
  curlPerform : Nat → Request → CurlOutcome
  curlStrerror : Nat → String
  jsonParse : String → Except String J
  isMember : J → String → Bool
  getAsString : J → String → String → String
  writeString : J → String

/-- The state of the process: the static `Logger` data and the trace of what
it has done so far. -/
structure World where
  logger : Logger
  trace : List Event
  deriving DecidableEq, Repr

/-- The requests handed to libcurl so far, oldest first. -/
def World.requests (w : World) : List Request :=
  w.trace.filterMap fun e => match e with
    | Event.request r => some r
    | _ => none

/-- The sleeps made so far, oldest first. -/
def World.sleeps (w : World) : List Int :=
  w.trace.filterMap fun e => match e with
    | Event.sleep d => some d
    | _ => none

/-- The samples handed to the progress callback so far, oldest first. -/
def World.samples (w : World) : List Sample :=
  w.trace.filterMap fun e => match e with
    | Event.progress x => some x
    | _ => none

/-- A call of `Logger::log`. -/
def World.log (w : World) (level : LogLevel) (message : String) (verbose : Bool) : World :=
  { w with trace := w.trace ++ w.logger.log level message verbose }

/-- A call of `Logger::reportProgress`. -/
def World.reportProgress (w : World) (percent speed eta : ℚ) : World :=
  let r := w.logger.reportProgress percent speed eta
  { logger := r.1, trace := w.trace ++ r.2.toList.map Event.progress }

/-- A call of `Logger::resetProgress`, at the clock reading `now`. -/
def World.resetProgress (w : World) (now : ℚ) : World :=
  { w with logger := w.logger.resetProgress now }

/-- The call `curl_easy_perform` hands request `r` to libcurl. -/
def World.perform (w : World) (r : Request) : World :=
  { w with trace := w.trace ++ [Event.request r] }

/-- The call `std::this_thread::sleep_for(d)`. -/
def World.sleep (w : World) (d : Int) : World :=
  { w with trace := w.trace ++ [Event.sleep d] }

/-! ## ipfs_client.hpp / ipfs_client.cpp -/

/-- The enum `IPFSError`. -/
inductive IPFSError where
  | FileNotFound
  | CURLFailure
  | JSONParseError
  | PinataError
  | InvalidInput
  deriving DecidableEq, Repr

/-- The alias `Result<T> = std::expected<T, std::pair<IPFSError, std::string>>`. -/
abbrev Result (α : Type) := Except (IPFSError × String) α

/-- The call `s.substr(pos, count)` of `std::string` for `pos ≤ s.size()`. The
strings compared with it are ASCII, so counting characters or bytes agrees. -/
def substr (s : String) (pos count : Nat) : String :=
  ⟨(s.data.drop pos).take count⟩

/-- The call `s.substr(pos)` of `std::string` for `pos ≤ s.size()`. -/
def substrFrom (s : String) (pos : Nat) : String :=
  ⟨s.data.drop pos⟩

/-- The search of `std::string::find`: the first position at or after `pos`
where `pat` starts in `s`, `none` for `npos`. -/
def findFrom (pat : List Char) : List Char → Nat → Option Nat
  | [], pos => if pat = [] then some pos else none
  | c :: cs, pos => if pat.isPrefixOf (c :: cs) then some pos else findFrom pat cs (pos + 1)

/-- The call `s.find(pat)` of `std::string`, `none` for `npos`. -/
def find (s pat : String) : Option Nat :=
  findFrom pat.data s.data 0

/-- The function `progressCallback` of `ipfs_client.cpp`; `startTime` is the
field of the `ProgressData` passed as `clientp`. The counters are converted to
`double` and every operation rounds; the time elapsed, an exact difference of
two clock readings, is converted to a `double` number of seconds. -/
def progressCallback (startTime : ℚ) (w : World) (t : ProgressTick) : World :=
  let percent : ℚ :=
    if t.ultotal > 0 then
      Double.mul (Double.div (Double.ofInt t.ulnow) (Double.ofInt t.ultotal)) 100
    else 0
  let elapsedSeconds : ℚ := Double.round (t.now - startTime)
  let speed : ℚ :=
    if elapsedSeconds > 0 then Double.div (Double.ofInt t.ulnow) elapsedSeconds else 0
  let remainingBytes : ℚ := Double.ofInt (t.ultotal - t.ulnow)
  let eta : ℚ := if speed > 0 then Double.div remainingBytes speed else 0
  w.reportProgress percent speed eta

namespace IPFSClient

variable {J : Type}

/-- The options `performCURLRequest` sets on the handle before
`curl_easy_perform` (lines 49-77). -/
def buildRequest (env : Env J) (url method : String) (mime : Option (List MimePart)) : Request :=
  let headers := ["pinata_api_key: " ++ env.config.pinataApiKey,
                  "pinata_secret_api_key: " ++ env.config.pinataSecret]
    ++ (if mime.isSome then ["Content-Type: multipart/form-data"] else [])
  if method = "POST" ∧ mime.isSome = true then
    { url := url, headers := headers, verb := HttpVerb.MIMEPOST, mime := mime, noProgress := false }
  else
    { url := url, headers := headers,
      verb := if method = "DELETE" then HttpVerb.DELETE else HttpVerb.HTTPGET,
      mime := none, noProgress := true }

/-- The function `IPFSClient::performCURLRequest`. -/
def performCURLRequest (env : Env J) (url method : String) (mime : Option (List MimePart))
    (w : World) : Result String × World :=
  let startTime := env.steadyNow w.trace.length
  let w1 := w.log LogLevel.INFO ("Preparing " ++ method ++ " request to: " ++ url) true
  let req := buildRequest env url method mime
  let res := env.curlPerform w1.requests.length req
  let w2 := w1.perform req
  let w3 := if req.noProgress then w2 else res.ticks.foldl (progressCallback startTime) w2
  if res.code ≠ 0 then
    let error := env.curlStrerror res.code
    (Except.error (IPFSError.CURLFailure, error),
      w3.log LogLevel.ERROR ("CURL failed: " ++ error) true)
  else
    (Except.ok res.response, w3.log LogLevel.INFO ("Response: " ++ res.response) true)

/-- The function `IPFSClient::parseJSON`. -/
def parseJSON (env : Env J) (data : String) : Result J :=
  match env.jsonParse data with
  | Except.error errors => Except.error (IPFSError.JSONParseError, "Failed to parse JSON: " ++ errors)
  | Except.ok result => Except.ok result

/-- The function `IPFSClient::errorToString`. -/
def errorToString (error : IPFSError × String) : String :=
  let base := match error.1 with
    | IPFSError.FileNotFound => "File not found"
    | IPFSError.CURLFailure => "CURL request failed"
    | IPFSError.JSONParseError => "JSON parsing error"
    | IPFSError.PinataError => "Pinata service error"
    | IPFSError.InvalidInput => "Invalid input"
  base ++ " - Details: " ++ error.2

/-- The multipart body `performUpload` builds for each attempt (lines 128-140). -/
def uploadMime (env : Env J) (filePath : String) (metadata : Option J) : List MimePart :=
  [{ name := "file", filedata := some filePath, filename := some (env.fsFilename filePath),
     data := none }]
  ++ (match metadata with
      | some m => [{ name := "pinataMetadata", filedata := none, filename := none,
                     data := some (env.writeString m) }]
      | none => [])

/-- The loop of `performUpload` (lines 126-165), entered with the loop variable
at `attempt`. The first argument counts the iterations still allowed; started
with `retries + 1 - attempt` of them it reaches `0` exactly when the loop
condition `attempt <= retries` has become false, so both ways out of the loop
give the statement after it (line 165). The loop variable is an integer without
bound: `attempt + 1` stays within `int` as long as `retries` is below `INT_MAX`. -/
def uploadLoop (env : Env J) (filePath : String) (metadata : Option J) (retries : Int)
    (retryDelay : Int) : Nat → Int → World → Result String × World
  | 0, _, w => (Except.error (IPFSError.PinataError, "All upload attempts failed"), w)
  | fuel + 1, attempt, w =>
    if attempt ≤ retries then
      let w1 := w.resetProgress (env.steadyNow w.trace.length)
      let url := Config.PINATA_URL ++ "pinning/pinFileToIPFS"
      let response := performCURLRequest env url "POST" (some (uploadMime env filePath metadata)) w1
      match response.1 with
      | Except.error e =>
        let w2 := response.2.log LogLevel.ERROR
          ("Upload attempt " ++ toString (attempt + 1) ++ " failed: " ++ e.2) true
        if attempt = retries then (Except.error e, w2)
        else uploadLoop env filePath metadata retries retryDelay fuel (attempt + 1)
          (w2.sleep retryDelay)
      | Except.ok body =>
        match parseJSON env body with
        | Except.error _ =>
          let errorDetail := "No JSON response"
          let w2 := response.2.log LogLevel.ERROR
            ("Pinata error on attempt " ++ toString (attempt + 1) ++ ": " ++ errorDetail) true
          if attempt = retries then
            (Except.error (IPFSError.PinataError,
              "Pinata response missing IpfsHash: " ++ errorDetail), w2)
          else uploadLoop env filePath metadata retries retryDelay fuel (attempt + 1)
            (w2.sleep retryDelay)
        | Except.ok json =>
          if env.isMember json "IpfsHash" = false then
            let errorDetail := env.writeString json
            let w2 := response.2.log LogLevel.ERROR
              ("Pinata error on attempt " ++ toString (attempt + 1) ++ ": " ++ errorDetail) true
            if attempt = retries then
              (Except.error (IPFSError.PinataError,
                "Pinata response missing IpfsHash: " ++ errorDetail), w2)
            else uploadLoop env filePath metadata retries retryDelay fuel (attempt + 1)
              (w2.sleep retryDelay)
          else
            (Except.ok ("ipfs://" ++ env.getAsString json "IpfsHash" ""), response.2)
    else (Except.error (IPFSError.PinataError, "All upload attempts failed"), w)

/-- The function `IPFSClient::performUpload`; `retryDelay` is a number of seconds. -/
def performUpload (env : Env J) (filePath : String) (metadata : Option J) (retries : Int)
    (retryDelay : Int) (w : World) : Result String × World :=
  if env.fsExists filePath = false then
    (Except.error (IPFSError.FileNotFound, "File not found: " ++ filePath),
      w.log LogLevel.ERROR ("File not found: " ++ filePath) true)
  else
    uploadLoop env filePath metadata retries retryDelay (retries + 1).toNat 0 w

/-- The default arguments of `performUpload` declared in `ipfs_client.hpp`:
`retries = 2`, `retryDelay = std::chrono::seconds(1)`. -/
def performUploadDefault (env : Env J) (filePath : String) (metadata : Option J) (w : World) :
    Result String × World :=
  performUpload env filePath metadata 2 1 w

/-- The interface `IPFSClient::UploadStrategy`: an implementation of `upload`
receives the client (here: the collaborators and the state of the process), the
files and the metadata. -/
abbrev UploadStrategy (J : Type) :=
  Env J → List String → Option J → World → Result (List String) × World

end IPFSClient

namespace SingleFileStrategy

variable {J : Type}

/-- The function `SingleFileStrategy::upload`. -/
def upload : IPFSClient.UploadStrategy J := fun env files metadata w =>
  if h : files.length ≠ 1 then
    (Except.error (IPFSError.InvalidInput, "Single file strategy requires exactly one file"), w)
  else
    let result := IPFSClient.performUploadDefault env (files.get ⟨0, by omega⟩) metadata w
    match result.1 with
    | Except.error e => (Except.error e, result.2)
    | Except.ok id => (Except.ok [id], result.2)

end SingleFileStrategy

namespace BatchFileStrategy

variable {J : Type}

/-- The `for` loop of `BatchFileStrategy::upload` over the files still to do,
with the vector `results` built so far. -/
def uploadLoop (env : Env J) (metadata : Option J) :
    List String → List String → World → List String × World
  | [], results, w => (results, w)
  | file :: rest, results, w =>
    let result := IPFSClient.performUploadDefault env file metadata w
    match result.1 with
    | Except.ok id =>
      uploadLoop env metadata rest (results ++ [id])
        (result.2.log LogLevel.INFO ("Uploaded " ++ file ++ " to " ++ id) true)
    | Except.error e =>
      uploadLoop env metadata rest results
        (result.2.log LogLevel.ERROR
          ("Failed to upload " ++ file ++ ": " ++ IPFSClient.errorToString e) true)

/-- The function `BatchFileStrategy::upload`. -/
def upload : IPFSClient.UploadStrategy J := fun env files metadata w =>
  let r := uploadLoop env metadata files [] w
  (Except.ok r.1, r.2)

end BatchFileStrategy

namespace IPFSClient

variable {J : Type}

/-- The function `IPFSClient::upload`; `strategy` is `none` for a null `unique_ptr`. -/
def upload (env : Env J) (files : List String) (metadata : Option J)
    (strategy : Option (UploadStrategy J)) (w : World) : Result (List String) × World :=
  let strategy := match strategy with
    | some s => s
    | none => if files.length = 1 then SingleFileStrategy.upload else BatchFileStrategy.upload
  strategy env files metadata w

/-- The first two lines of `retrieveContent` and of `deletePin`: the hash with
a leading `ipfs://` taken off. -/
def hashStr (ipfsHash : String) : String :=
  if substr ipfsHash 0 7 = "ipfs://" then substrFrom ipfsHash 7 else ipfsHash

/-- The function `IPFSClient::retrieveContent`. -/
def retrieveContent (env : Env J) (ipfsHash : String) (w : World) : Result String × World :=
  performCURLRequest env (Config.IPFS_GATEWAY ++ hashStr ipfsHash) "GET" none w

/-- The function `IPFSClient::deletePin`. -/
def deletePin (env : Env J) (ipfsHash : String) (w : World) : Result Unit × World :=
  let response := performCURLRequest env
    (Config.PINATA_URL ++ "pinning/unpin/" ++ hashStr ipfsHash) "DELETE" none w
  match response.1 with
  | Except.error e => (Except.error e, response.2)
  | Except.ok body =>
    match parseJSON env body with
    | Except.error _ =>
      if find body "error" = none then
        (Except.ok (),
          (response.2.log LogLevel.INFO
            ("Warning: Unexpected non-JSON response: " ++ body ++ ", assuming success") true).log
            LogLevel.INFO ("Successfully deleted " ++ ipfsHash) true)
      else
        (Except.error (IPFSError.PinataError,
            "Failed to delete pin: unparseable response - " ++ body),
          response.2.log LogLevel.ERROR
            ("Delete failed with unparseable response: " ++ body) true)
    | Except.ok json =>
      if env.isMember json "error" = true then
        let errorDetail := env.writeString json
        (Except.error (IPFSError.PinataError, "Failed to delete pin: " ++ errorDetail),
          response.2.log LogLevel.ERROR ("Delete failed: " ++ errorDetail) true)
      else
        (Except.ok (), response.2.log LogLevel.INFO ("Successfully deleted " ++ ipfsHash) true)

/-- The call `*e` of `std::expected::operator*`: the value `e` holds. Its
precondition is `e.has_value()`; applied to an `expected` that holds an error
the behaviour is undefined, which is `none` here. -/
def deref {α : Type} : Result α → Option α
  | Except.ok value => some value
  | Except.error _ => none

/-- The function `IPFSClient::listPins`; `group` is `none` for `std::nullopt`.
The result is `none` when the call runs into undefined behaviour: line 188
applies `operator*` to what `performCURLRequest` returns without a test of
`has_value()`. -/
def listPins (env : Env J) (group : Option String) (w : World) : Option (Result J) × World :=
  let url := Config.PINATA_URL ++ "data/pinList"
  let url := match group with
    | some g => url ++ ("?metadata[name]=" ++ g)
    | none => url
  let response := performCURLRequest env url "GET" none w
  match deref response.1 with
  | some body => (some (parseJSON env body), response.2)
  | none => (none, response.2)

end IPFSClient

/-! ## The notions the statements below are about -/

namespace IPFSClient

variable {J : Type}

/-- The request every attempt of `performUpload` hands to libcurl. -/
def uploadRequest (env : Env J) (filePath : String) (metadata : Option J) : Request :=
  buildRequest env (Config.PINATA_URL ++ "pinning/pinFileToIPFS") "POST"
    (some (uploadMime env filePath metadata))

/-- The request `deletePin` hands to libcurl. -/
def deleteRequest (env : Env J) (ipfsHash : String) : Request :=
  buildRequest env (Config.PINATA_URL ++ "pinning/unpin/" ++ hashStr ipfsHash) "DELETE" none

/-- The request `retrieveContent` hands to libcurl for the bare hash `h`. -/
def getRequest (env : Env J) (h : String) : Request :=
  buildRequest env (Config.IPFS_GATEWAY ++ h) "GET" none

/-- The request `listPins` hands to libcurl. -/
def listRequest (env : Env J) (group : Option String) : Request :=
  buildRequest env
    (match group with
      | some g => Config.PINATA_URL ++ "data/pinList" ++ ("?metadata[name]=" ++ g)
      | none => Config.PINATA_URL ++ "data/pinList")
    "GET" none

/-- An upload attempt with transfer outcome `res` fails: the transport fails, or
the body does not decode, or the decoded body lacks the field `IpfsHash`. -/
def AttemptFails (env : Env J) (res : CurlOutcome) : Prop :=
  res.code ≠ 0
  ∨ (∃ errors, env.jsonParse res.response = Except.error errors)
  ∨ (∃ json, env.jsonParse res.response = Except.ok json ∧ env.isMember json "IpfsHash" = false)

/-- An upload attempt with transfer outcome `res` succeeds with hash `h`: the
transport succeeds and the body decodes to a structure with field `IpfsHash = h`. -/
def AttemptSucceeds (env : Env J) (res : CurlOutcome) (h : String) : Prop :=
  res.code = 0
  ∧ ∃ json, env.jsonParse res.response = Except.ok json ∧ env.isMember json "IpfsHash" = true
      ∧ env.getAsString json "IpfsHash" "" = h

end IPFSClient

namespace BatchFileStrategy

variable {J : Type}

/-- The state one file of a batch leaves: the per-file upload of `file` is run
once in the state `w`, and the line for its outcome is logged. -/
def afterFile (env : Env J) (metadata : Option J) (w : World) (file : String) : World :=
  let result := IPFSClient.performUploadDefault env file metadata w
  match result.1 with
  | Except.ok id => result.2.log LogLevel.INFO ("Uploaded " ++ file ++ " to " ++ id) true
  | Except.error e =>
    result.2.log LogLevel.ERROR
      ("Failed to upload " ++ file ++ ": " ++ IPFSClient.errorToString e) true

/-- The outcome of the per-file upload of each file of a batch, in input order:
the first file is uploaded in the state the batch starts in, each later one in
the state left by the file before it. -/
def outcomes (env : Env J) (metadata : Option J) : List String → World → List (Result String)
  | [], _ => []
  | file :: rest, w =>
    (IPFSClient.performUploadDefault env file metadata w).1
      :: outcomes env metadata rest (afterFile env metadata w file)

end BatchFileStrategy

/-! ## Stand-ins for the collaborators, used in the examples -/

namespace Mock

/-- A stand-in for the JSON reader: a document is one string field, written
`key=value`; a text without `=` does not decode. -/
def parse (s : String) : Except String (List (String × String)) :=
  match s.data.span (fun c => c != '=') with
  | (k, _ :: v) => Except.ok [(String.mk k, String.mk v)]
  | (_, []) => Except.error "no field"

/-- The file a request uploads: the `filedata` of its first part. -/
def fileOf (r : Request) : String :=
  match r.mime with
  | some (part :: _) => part.filedata.getD ""
  | _ => ""

/-- Collaborators for the examples, around a given transport: every path but
`missing.txt` exists, the clock reads the length of the trace. -/
def env (perform : Nat → Request → CurlOutcome) : Env (List (String × String)) where
  config := ⟨"key", "secret"⟩
  fsExists := fun p => p != "missing.txt"
  fsFilename := fun p => p
  steadyNow := fun n => n
  curlPerform := perform
  curlStrerror := fun code => if code = 7 then "Couldn't connect to server" else "Error"
  jsonParse := parse
  isMember := fun json key => json.any fun kv => kv.1 == key
  getAsString := fun json key dflt => ((json.find? fun kv => kv.1 == key).map Prod.snd).getD dflt
  writeString := fun json => String.join (json.map fun kv => kv.1 ++ "=" ++ kv.2)

/-- A transport that fails every transfer with `CURLE_COULDNT_CONNECT`. -/
def alwaysFails : Nat → Request → CurlOutcome :=
  fun _ _ => ⟨[], 7, ""⟩

/-- A transport whose second transfer succeeds, after two progress ticks, and
whose other transfers fail. -/
def secondSucceeds : Nat → Request → CurlOutcome :=
  fun n _ =>
    if n = 1 then ⟨[⟨0, 0, 10, 5, 3⟩, ⟨0, 0, 10, 10, 4⟩], 0, "IpfsHash=QmXYZ"⟩
    else ⟨[], 7, ""⟩

/-- A transport that fails every upload of the file `B` and answers every other
upload with the hash `Qm` followed by the path. -/
def failsForB : Nat → Request → CurlOutcome :=
  fun _ r =>
    if fileOf r = "B" then ⟨[], 7, ""⟩
    else ⟨[], 0, "IpfsHash=Qm" ++ fileOf r⟩

/-- A transport whose every transfer succeeds with the given body. -/
def answers (body : String) : Nat → Request → CurlOutcome :=
  fun _ _ => ⟨[], 0, body⟩

/-- The state of a process that has switched verbose mode on, registered a
progress callback and done nothing else. -/
def world : World :=
  { logger := ⟨true, true, -1, false, 0, 0⟩, trace := [] }

end Mock

/-! ## Rounding to the nearest double -/

namespace Double

theorem floor_le_roundHalfEven (m : ℚ) : ⌊m⌋ ≤ roundHalfEven m := by
  unfold roundHalfEven
  split_ifs <;> omega

theorem roundHalfEven_intCast (k : ℤ) : roundHalfEven (k : ℚ) = k := by
  unfold roundHalfEven
  simp

/-- The spacing around a number below `2 ^ 53` in size is at most `1`. -/
theorem ulpExponent_nonpos (y : ℚ) (hy : |y| < 2 ^ 53) : ulpExponent y ≤ 0 := by
  unfold ulpExponent
  have hlog : Int.log 2 |y| < 53 := by
    rcases (abs_nonneg y).eq_or_lt with h0 | hpos
    · rw [← h0, Int.log_zero_right]
      norm_num
    · rw [← Int.lt_zpow_iff_log_lt (by norm_num) hpos]
      exact_mod_cast hy
  omega

/-- The spacing at a given binade `2 ^ e ≤ |y| < 2 ^ (e + 1)` of normal numbers. -/
theorem ulpExponent_of_binade (y : ℚ) (e : ℤ) (he : -1022 ≤ e) (h1 : 2 ^ e ≤ |y|)
    (h2 : |y| < 2 ^ (e + 1)) : ulpExponent y = e - 52 := by
  have hpos : 0 < |y| := lt_of_lt_of_le (by positivity) h1
  have hle : e ≤ Int.log 2 |y| := by
    rw [← Int.zpow_le_iff_le_log (by norm_num) hpos]
    simpa using h1
  have hlt : Int.log 2 |y| < e + 1 := by
    rw [← Int.lt_zpow_iff_log_lt (by norm_num) hpos]
    simpa using h2
  unfold ulpExponent
  omega

/-- With a spacing `2 ^ (-k)`, rounding is rounding `y * 2 ^ k` to an integer. -/
theorem round_of_ulpExponent (y : ℚ) (k : ℕ) (hk : ulpExponent y = -(k : ℤ)) :
    round y = roundHalfEven (y * 2 ^ k) / 2 ^ k := by
  unfold round
  rw [hk, zpow_neg, zpow_natCast, div_inv_eq_mul, div_eq_mul_inv]

/-- Rounding never goes below an integer that the exact value has reached. -/
theorem le_round_of_intCast_le (y : ℚ) (hy : |y| < 2 ^ 53) (n : ℤ) (hn : (n : ℚ) ≤ y) :
    (n : ℚ) ≤ round y := by
  obtain ⟨k, hk⟩ := Int.exists_eq_neg_ofNat (ulpExponent_nonpos y hy)
  rw [round_of_ulpExponent y k hk, le_div_iff₀ (by positivity)]
  have h1 : ((n * 2 ^ k : ℤ) : ℚ) ≤ y * 2 ^ k := by
    push_cast
    exact mul_le_mul_of_nonneg_right hn (by positivity)
  have h2 : n * 2 ^ k ≤ roundHalfEven (y * 2 ^ k) :=
    (Int.le_floor.mpr h1).trans (floor_le_roundHalfEven _)
  have h3 : ((n * 2 ^ k : ℤ) : ℚ) ≤ (roundHalfEven (y * 2 ^ k) : ℚ) := by exact_mod_cast h2
  simpa using h3

/-- An integer below `2 ^ 53` in size is a double: rounding leaves it as it is. -/
theorem round_intCast (n : ℤ) (hn : |(n : ℚ)| < 2 ^ 53) : round (n : ℚ) = n := by
  obtain ⟨k, hk⟩ := Int.exists_eq_neg_ofNat (ulpExponent_nonpos (n : ℚ) hn)
  rw [round_of_ulpExponent (n : ℚ) k hk]
  have h1 : (n : ℚ) * 2 ^ k = ((n * 2 ^ k : ℤ) : ℚ) := by push_cast; rfl
  rw [h1, roundHalfEven_intCast]
  push_cast
  field_simp

/-- On a whole number the double sum with `1` is the exact sum. -/
theorem add_one_intCast (n : ℤ) (h0 : -1 ≤ n) (h1 : n ≤ 100) :
    add (n : ℚ) 1 = (n : ℚ) + 1 := by
  have hc : (n : ℚ) + 1 = ((n + 1 : ℤ) : ℚ) := by push_cast; rfl
  unfold add
  rw [hc]
  apply round_intCast
  rw [abs_lt]
  have h0q : (-1 : ℚ) ≤ (n : ℚ) := by exact_mod_cast h0
  have h1q : (n : ℚ) ≤ 100 := by exact_mod_cast h1
  push_cast
  constructor <;> norm_num <;> linarith

/-- A sum that falls halfway between two doubles goes to the even one: the
double after `1`, plus `1`, is `2`. -/
theorem add_tie_to_even : add (1 + 2 ^ (-52 : ℤ)) 1 = 2 := by
  have hu : ulpExponent (1 + 2 ^ (-52 : ℤ) + 1) = -((51 : ℕ) : ℤ) := by
    rw [ulpExponent_of_binade _ 1 (by norm_num) (by norm_num [abs_of_pos])
      (by norm_num [abs_of_pos])]
    norm_num
  unfold add
  rw [round_of_ulpExponent _ 51 hu]
  have hm : (1 + 2 ^ (-52 : ℤ) + 1 : ℚ) * 2 ^ 51 = 2 ^ 52 + 1 / 2 := by norm_num
  have hf : ⌊(2 ^ 52 + 1 / 2 : ℚ)⌋ = 2 ^ 52 := by
    rw [Int.floor_eq_iff]
    constructor <;> norm_num
  rw [hm]
  unfold roundHalfEven
  rw [hf]
  norm_num

end Double

/-! ## The progress reporter (`Logger::reportProgress`, `Logger::resetProgress`) -/

theorem Logger.reportProgress_of_emits (L : Logger) (percent speed eta : ℚ)
    (h : L.emits percent) :
    L.reportProgress percent speed eta =
      ({ L with
          lastProgress := percent
          progressComplete := if percent = 100 then true else L.progressComplete },
        some ⟨percent, speed, eta⟩) := by
  obtain ⟨h1, h2, h3, h4, h5, h6⟩ := h
  unfold Logger.reportProgress
  rw [if_pos ⟨h1, h2, h3, h4, h5⟩, if_pos h6]

theorem Logger.reportProgress_of_not_emits (L : Logger) (percent speed eta : ℚ)
    (h : ¬ L.emits percent) :
    L.reportProgress percent speed eta = (L, none) := by
  unfold Logger.reportProgress
  by_cases hg : L.progressCallback = true ∧ L.verboseMode = true ∧ percent ≥ 0 ∧ percent ≤ 100
      ∧ L.progressComplete = false
  · rw [if_pos hg]
    by_cases hs : L.lastProgress < 0 ∨ percent ≥ Double.add L.lastProgress 1 ∨ percent = 100
    · exact absurd ⟨hg.1, hg.2.1, hg.2.2.1, hg.2.2.2.1, hg.2.2.2.2, hs⟩ h
    · rw [if_neg hs]
  · rw [if_neg hg]

/-- The sum `lastProgress + 1.0` is rounded as the code rounds it: after the
double that follows `1`, the sample `2` is emitted, the sum being `2`. -/
theorem Logger.reportProgress_rounds_sum (speed eta : ℚ) :
    ((⟨true, true, 1 + 2 ^ (-52 : ℤ), false, 0, 0⟩ : Logger).reportProgress 2 speed eta).2
      = some ⟨2, speed, eta⟩ := by
  have he : (⟨true, true, 1 + 2 ^ (-52 : ℤ), false, 0, 0⟩ : Logger).emits 2 :=
    ⟨rfl, rfl, by norm_num, by norm_num, rfl,
      Or.inr (Or.inl (by rw [Double.add_tie_to_even]))⟩
  rw [Logger.reportProgress_of_emits _ _ _ _ he]

theorem Logger.reportAll_cons (L : Logger) (x : Sample) (xs : List Sample) :
    L.reportAll (x :: xs) =
      (((L.reportProgress x.percent x.speed x.eta).1.reportAll xs).1,
        (L.reportProgress x.percent x.speed x.eta).2.toList
          ++ ((L.reportProgress x.percent x.speed x.eta).1.reportAll xs).2) := rfl

theorem Logger.reportProgress_flags (L : Logger) (percent speed eta : ℚ) :
    (L.reportProgress percent speed eta).1.progressCallback = L.progressCallback
    ∧ (L.reportProgress percent speed eta).1.verboseMode = L.verboseMode := by
  by_cases h : L.emits percent
  · rw [Logger.reportProgress_of_emits L percent speed eta h]
    exact ⟨rfl, rfl⟩
  · rw [Logger.reportProgress_of_not_emits L percent speed eta h]
    exact ⟨rfl, rfl⟩

theorem Logger.reportAll_flags (xs : List Sample) :
    ∀ L : Logger, (L.reportAll xs).1.progressCallback = L.progressCallback
      ∧ (L.reportAll xs).1.verboseMode = L.verboseMode := by
  induction xs with
  | nil => intro L; exact ⟨rfl, rfl⟩
  | cons x xs ih =>
    intro L
    rw [Logger.reportAll_cons]
    have h1 := ih (L.reportProgress x.percent x.speed x.eta).1
    have h2 := Logger.reportProgress_flags L x.percent x.speed x.eta
    exact ⟨h1.1.trans h2.1, h1.2.trans h2.2⟩

/-- Once the completion flag is set, a run of reports emits nothing and leaves
the state as it is. -/
theorem Logger.reportAll_of_complete (xs : List Sample) :
    ∀ L : Logger, L.progressComplete = true → L.reportAll xs = (L, []) := by
  induction xs with
  | nil => intro L _; rfl
  | cons x xs ih =>
    intro L hc
    have hn : ¬ L.emits x.percent := fun h => by
      have := h.2.2.2.2.1
      rw [hc] at this
      exact Bool.noConfusion this
    rw [Logger.reportAll_cons, Logger.reportProgress_of_not_emits L _ _ _ hn, ih L hc]
    rfl

/-- Two reporter states that agree on the four fields `reportProgress` reads
emit the same samples. -/
theorem Logger.reportAll_congr (xs : List Sample) :
    ∀ L M : Logger, L.progressCallback = M.progressCallback → L.verboseMode = M.verboseMode →
      L.lastProgress = M.lastProgress → L.progressComplete = M.progressComplete →
      (L.reportAll xs).2 = (M.reportAll xs).2 := by
  induction xs with
  | nil => intro L M _ _ _ _; rfl
  | cons x xs ih =>
    intro L M h1 h2 h3 h4
    rw [Logger.reportAll_cons, Logger.reportAll_cons]
    by_cases h : L.emits x.percent
    · have hM : M.emits x.percent := by
        unfold Logger.emits at h ⊢
        rw [← h1, ← h2, ← h3, ← h4]
        exact h
      rw [Logger.reportProgress_of_emits L _ _ _ h, Logger.reportProgress_of_emits M _ _ _ hM]
      have := ih { L with lastProgress := x.percent
                          progressComplete := if x.percent = 100 then true else L.progressComplete }
                 { M with lastProgress := x.percent
                          progressComplete := if x.percent = 100 then true else M.progressComplete }
                 h1 h2 rfl (by simp only [h4])
      simp only [this]
    · have hM : ¬ M.emits x.percent := by
        unfold Logger.emits at h ⊢
        rw [← h1, ← h2, ← h3, ← h4]
        exact h
      rw [Logger.reportProgress_of_not_emits L _ _ _ h,
        Logger.reportProgress_of_not_emits M _ _ _ hM]
      simp only [ih L M h1 h2 h3 h4]

/-- C8. On a reporter with a registered sink and verbose mode on, after any run
of reports: once a sample with percent `100` has been emitted, no further sample
(another `100` included) is emitted by any later run of reports; `resetProgress`
unsets `lastProgress` and clears the completion flag, after it the next sample
with percent in `[0, 100]` is emitted whatever its value, and the samples emitted
after the reset are those a reporter reset without any history emits. -/
theorem complete_suppresses_until_reset (L : Logger) (hcb : L.progressCallback = true)
    (hv : L.verboseMode = true) :
    (∀ (xs ys : List Sample) (speed eta : ℚ),
      ((L.reportAll xs).1.reportProgress 100 speed eta).2 = some ⟨100, speed, eta⟩ →
        (((L.reportAll xs).1.reportProgress 100 speed eta).1.reportAll ys).2 = [])
    ∧ (∀ (xs : List Sample) (now : ℚ),
        ((L.reportAll xs).1.resetProgress now).lastProgress < 0
        ∧ ((L.reportAll xs).1.resetProgress now).progressComplete = false)
    ∧ (∀ (xs : List Sample) (now percent speed eta : ℚ), 0 ≤ percent → percent ≤ 100 →
        (((L.reportAll xs).1.resetProgress now).reportProgress percent speed eta).2
          = some ⟨percent, speed, eta⟩)
    ∧ (∀ (xs ys : List Sample) (now : ℚ),
        (((L.reportAll xs).1.resetProgress now).reportAll ys).2
          = ((L.resetProgress now).reportAll ys).2) := by
  refine ⟨?_, ?_, ?_, ?_⟩
  · intro xs ys speed eta hem
    have he : (L.reportAll xs).1.emits 100 := by
      by_contra hn
      rw [Logger.reportProgress_of_not_emits _ _ _ _ hn] at hem
      exact Option.noConfusion hem
    rw [Logger.reportProgress_of_emits _ _ _ _ he,
      Logger.reportAll_of_complete ys _ (by simp)]
  · intro xs now
    exact ⟨by simp [Logger.resetProgress], rfl⟩
  · intro xs now percent speed eta h0 h100
    have hf := Logger.reportAll_flags xs L
    have he : ((L.reportAll xs).1.resetProgress now).emits percent :=
      ⟨hf.1.trans hcb, hf.2.trans hv, h0, h100, rfl, Or.inl (by simp [Logger.resetProgress])⟩
    rw [Logger.reportProgress_of_emits _ _ _ _ he]
  · intro xs ys now
    have hf := Logger.reportAll_flags xs L
    exact Logger.reportAll_congr ys _ _ hf.1 hf.2 rfl rfl

/-- The witness of C8: a reporter with a sink and verbose mode on that is fed
`0, 50, 99`: the `100` that follows is emitted, a later `100` and a later `50`
are not, and after a reset the sample `0` is emitted again. -/
theorem complete_suppresses_until_reset_witness :
    ((((⟨true, true, -1, false, 0, 0⟩ : Logger).reportAll
          [⟨0, 1, 9⟩, ⟨50, 1, 5⟩, ⟨99, 1, 1⟩]).1.reportProgress 100 1 0).1.reportAll
        [⟨100, 1, 0⟩, ⟨50, 1, 0⟩]).2 = []
    ∧ ((((⟨true, true, -1, false, 0, 0⟩ : Logger).reportAll
          [⟨0, 1, 9⟩, ⟨50, 1, 5⟩, ⟨99, 1, 1⟩]).1.resetProgress 5).reportProgress 0 1 0).2
        = some ⟨0, 1, 0⟩ :=
  ⟨(complete_suppresses_until_reset ⟨true, true, -1, false, 0, 0⟩ rfl rfl).1
      [⟨0, 1, 9⟩, ⟨50, 1, 5⟩, ⟨99, 1, 1⟩] [⟨100, 1, 0⟩, ⟨50, 1, 0⟩] 1 0
      (by
        have h0 : Double.add 0 1 = 1 := by
          simpa using Double.add_one_intCast 0 (by norm_num) (by norm_num)
        have h50 : Double.add 50 1 = 51 := by
          have := Double.add_one_intCast 50 (by norm_num) (by norm_num)
          norm_num at this
          exact this
        norm_num [Logger.reportAll, Logger.reportProgress, h0, h50]),
    (complete_suppresses_until_reset ⟨true, true, -1, false, 0, 0⟩ rfl rfl).2.2.1
      [⟨0, 1, 9⟩, ⟨50, 1, 5⟩, ⟨99, 1, 1⟩] 5 0 1 0 (by norm_num) (by norm_num)⟩

/-- In a state where `lastProgress` is at most `100`, and is `100` only with the
completion flag set, an emitted percent is above `lastProgress`, in value and in
whole-percent part. -/
theorem Logger.emits_step (L : Logger) (percent : ℚ)
    (h100 : L.lastProgress ≤ 100) (hc : L.lastProgress = 100 → L.progressComplete = true)
    (h : L.emits percent) :
    L.lastProgress < percent ∧ ⌊L.lastProgress⌋ < ⌊percent⌋ := by
  obtain ⟨_, _, hp0, _, hnc, hs⟩ := h
  have hneg : L.lastProgress < 0 → L.lastProgress < percent ∧ ⌊L.lastProgress⌋ < ⌊percent⌋ := by
    intro hs
    refine ⟨lt_of_lt_of_le hs hp0, ?_⟩
    have h1 : ⌊L.lastProgress⌋ < 0 := Int.floor_lt.mpr (by simpa using hs)
    have h2 : 0 ≤ ⌊percent⌋ := Int.floor_nonneg.mpr hp0
    omega
  rcases hs with hs | hs | hs
  · exact hneg hs
  · by_cases hlp : L.lastProgress < 0
    · exact hneg hlp
    · have h0 : 0 ≤ L.lastProgress := not_lt.mp hlp
      have habs : |L.lastProgress + 1| < 2 ^ 53 := by
        rw [abs_lt]
        constructor <;> norm_num <;> linarith
      have hfl : ((⌊L.lastProgress⌋ + 1 : ℤ) : ℚ) ≤ L.lastProgress + 1 := by
        push_cast
        linarith [Int.floor_le L.lastProgress]
      have hstep : ((⌊L.lastProgress⌋ + 1 : ℤ) : ℚ) ≤ percent :=
        (Double.le_round_of_intCast_le _ habs _ hfl).trans hs
      have h1 : ⌊L.lastProgress⌋ + 1 ≤ ⌊percent⌋ := Int.le_floor.mpr hstep
      refine ⟨?_, by omega⟩
      have h2 : L.lastProgress < ((⌊L.lastProgress⌋ + 1 : ℤ) : ℚ) := by
        push_cast
        exact Int.lt_floor_add_one L.lastProgress
      exact lt_of_lt_of_le h2 hstep
  · have hne : L.lastProgress ≠ 100 := fun he => by
      rw [hc he] at hnc
      exact Bool.noConfusion hnc
    have hlt : L.lastProgress < 100 := lt_of_le_of_ne h100 hne
    subst hs
    refine ⟨hlt, ?_⟩
    have h1 : ⌊L.lastProgress⌋ < 100 := Int.floor_lt.mpr (by simpa using hlt)
    have h2 : ⌊(100 : ℚ)⌋ = 100 := by norm_num
    omega

/-- Every percent emitted by a run of reports lies in `[0, 100]` and is above the
`lastProgress` the run started from, in value and in whole-percent part; and the
emitted percents increase strictly, in value and in whole-percent part. -/
theorem Logger.reportAll_increasing (xs : List Sample) :
    ∀ L : Logger, L.lastProgress ≤ 100 → (L.lastProgress = 100 → L.progressComplete = true) →
      (∀ q ∈ (L.reportAll xs).2.map Sample.percent,
        L.lastProgress < q ∧ ⌊L.lastProgress⌋ < ⌊q⌋ ∧ 0 ≤ q ∧ q ≤ 100)
      ∧ ((L.reportAll xs).2.map Sample.percent).Pairwise (fun a b => a < b ∧ ⌊a⌋ < ⌊b⌋) := by
  induction xs with
  | nil =>
    intro L _ _
    exact ⟨fun q hq => by simp [Logger.reportAll] at hq, by simp [Logger.reportAll]⟩
  | cons x xs ih =>
    intro L h100 hc
    rw [Logger.reportAll_cons]
    by_cases h : L.emits x.percent
    · have hstep := Logger.emits_step L x.percent h100 hc h
      rw [Logger.reportProgress_of_emits L _ _ _ h]
      have hih := ih { L with lastProgress := x.percent
                              progressComplete :=
                                if x.percent = 100 then true else L.progressComplete }
        h.2.2.2.1 (fun he => by simp [show x.percent = 100 from he])
      simp only [Option.toList, List.singleton_append, List.map_cons, List.mem_cons,
        List.pairwise_cons]
      refine ⟨?_, ?_, hih.2⟩
      · intro q hq
        rcases hq with hq | hq
        · subst hq
          exact ⟨hstep.1, hstep.2, h.2.2.1, h.2.2.2.1⟩
        · have := hih.1 q hq
          exact ⟨lt_trans hstep.1 this.1, lt_trans hstep.2 this.2.1, this.2.2⟩
      · intro q hq
        have := hih.1 q hq
        exact ⟨this.1, this.2.1⟩
    · rw [Logger.reportProgress_of_not_emits L _ _ _ h]
      simpa using ih L h100 hc

/-- C9. Within one operation (the reports made after a `resetProgress`): the
emitted percents are strictly increasing, no two emitted samples have the same
whole-percent part, every emitted percent lies in `[0, 100]`; and in any state
with a sink, verbose mode on and the completion flag clear, a sample with percent
`100` is emitted, whatever was emitted before. -/
theorem emitted_monotone_once_per_step (L : Logger) (now : ℚ) (xs : List Sample) :
    (((L.resetProgress now).reportAll xs).2.map Sample.percent).Pairwise (fun a b => a < b)
    ∧ (((L.resetProgress now).reportAll xs).2.map Sample.percent).Pairwise
        (fun a b => ⌊a⌋ ≠ ⌊b⌋)
    ∧ (∀ q ∈ ((L.resetProgress now).reportAll xs).2.map Sample.percent, 0 ≤ q ∧ q ≤ 100)
    ∧ (∀ (M : Logger) (speed eta : ℚ), M.progressCallback = true → M.verboseMode = true →
        M.progressComplete = false →
        (M.reportProgress 100 speed eta).2 = some ⟨100, speed, eta⟩) := by
  have hinv := Logger.reportAll_increasing xs (L.resetProgress now)
    (by norm_num [Logger.resetProgress]) (fun he => by norm_num [Logger.resetProgress] at he)
  refine ⟨hinv.2.imp fun h => h.1, hinv.2.imp fun h => ne_of_lt h.2,
    fun q hq => (hinv.1 q hq).2.2, ?_⟩
  intro M speed eta hcb hv hnc
  have he : M.emits 100 := ⟨hcb, hv, by norm_num, le_refl _, hnc, Or.inr (Or.inr rfl)⟩
  rw [Logger.reportProgress_of_emits M _ _ _ he]

/-- The witness of C9: in a run that starts at `99.5`, the `100` that follows is
still emitted. -/
theorem emitted_monotone_once_per_step_witness :
    ((⟨true, true, 199 / 2, false, 0, 0⟩ : Logger).reportProgress 100 1 0).2
        = some ⟨100, 1, 0⟩
    ∧ ((((⟨true, true, 40, true, 0, 0⟩ : Logger).resetProgress 7).reportAll
          [⟨199 / 2, 1, 1⟩, ⟨100, 1, 0⟩]).2.map Sample.percent).Pairwise
        (fun a b => ⌊a⌋ ≠ ⌊b⌋) :=
  ⟨(emitted_monotone_once_per_step ⟨true, true, 40, true, 0, 0⟩ 7
      [⟨199 / 2, 1, 1⟩, ⟨100, 1, 0⟩]).2.2.2 ⟨true, true, 199 / 2, false, 0, 0⟩ 1 0 rfl rfl rfl,
    (emitted_monotone_once_per_step ⟨true, true, 40, true, 0, 0⟩ 7
      [⟨199 / 2, 1, 1⟩, ⟨100, 1, 0⟩]).2.1⟩

/-! ## The requests in the trace -/

theorem World.requests_log (w : World) (level : LogLevel) (message : String) (verbose : Bool) :
    (w.log level message verbose).requests = w.requests := by
  unfold World.log World.requests Logger.log
  by_cases h : (!verbose || w.logger.verboseMode) = true
  · simp [h]
  · simp [h]

theorem World.requests_resetProgress (w : World) (now : ℚ) :
    (w.resetProgress now).requests = w.requests := rfl

theorem World.requests_perform (w : World) (r : Request) :
    (w.perform r).requests = w.requests ++ [r] := by
  simp [World.perform, World.requests]

theorem World.requests_sleep (w : World) (d : Int) :
    (w.sleep d).requests = w.requests := by
  simp [World.sleep, World.requests]

theorem World.requests_reportProgress (w : World) (percent speed eta : ℚ) :
    (w.reportProgress percent speed eta).requests = w.requests := by
  unfold World.reportProgress World.requests
  cases h : (w.logger.reportProgress percent speed eta).2 <;> simp [h]

theorem requests_progressCallback (startTime : ℚ) (ticks : List ProgressTick) :
    ∀ w : World, (ticks.foldl (progressCallback startTime) w).requests = w.requests := by
  induction ticks with
  | nil => intro w; rfl
  | cons t ts ih =>
    intro w
    rw [List.foldl_cons, ih]
    exact World.requests_reportProgress w _ _ _

namespace IPFSClient

variable {J : Type}

/-- The function `performCURLRequest` hands exactly one request to libcurl, the one built
from its arguments; it returns the pair `(CURLFailure, curl_easy_strerror(res))`
when the transfer fails and the body when it succeeds. -/
theorem performCURLRequest_spec (env : Env J) (url method : String)
    (mime : Option (List MimePart)) (w : World) :
    (performCURLRequest env url method mime w).2.requests
        = w.requests ++ [buildRequest env url method mime]
    ∧ (performCURLRequest env url method mime w).1
        = (if (env.curlPerform w.requests.length (buildRequest env url method mime)).code ≠ 0
          then Except.error (IPFSError.CURLFailure, env.curlStrerror
            (env.curlPerform w.requests.length (buildRequest env url method mime)).code)
          else Except.ok
            (env.curlPerform w.requests.length (buildRequest env url method mime)).response) := by
  unfold performCURLRequest
  simp only [World.requests_log]
  by_cases hc : (env.curlPerform w.requests.length (buildRequest env url method mime)).code ≠ 0
  · simp only [if_pos hc, World.requests_log]
    refine ⟨?_, trivial⟩
    by_cases hp : (buildRequest env url method mime).noProgress = true
    · simp only [if_pos hp, World.requests_perform, World.requests_log]
    · simp only [if_neg hp, requests_progressCallback, World.requests_perform,
        World.requests_log]
  · simp only [if_neg hc, World.requests_log]
    refine ⟨?_, trivial⟩
    by_cases hp : (buildRequest env url method mime).noProgress = true
    · simp only [if_pos hp, World.requests_perform, World.requests_log]
    · simp only [if_neg hp, requests_progressCallback, World.requests_perform,
        World.requests_log]

end IPFSClient

/-! ## Strategy selection, the single strategy, the missing file -/

/-- C4. Called with no strategy, `upload` behaves as the single strategy when the
file list has exactly one element and as the batch strategy for every other
length, `0` included; called with a strategy, it runs that strategy whatever the
file count. -/
theorem upload_strategy_selection {J : Type} (env : Env J) (files : List String)
    (metadata : Option J) (w : World) :
    (files.length = 1 →
      IPFSClient.upload env files metadata none w
        = SingleFileStrategy.upload env files metadata w)
    ∧ (files.length ≠ 1 →
      IPFSClient.upload env files metadata none w
        = BatchFileStrategy.upload env files metadata w)
    ∧ (∀ strategy : IPFSClient.UploadStrategy J,
      IPFSClient.upload env files metadata (some strategy) w
        = strategy env files metadata w) := by
  refine ⟨fun h => ?_, fun h => ?_, fun _ => rfl⟩
  · simp only [IPFSClient.upload, if_pos h]
  · simp only [IPFSClient.upload, if_neg h]

/-- The witness of C4: one file goes to the single strategy, no file and two
files go to the batch strategy. -/
theorem upload_strategy_selection_witness :
    IPFSClient.upload (Mock.env Mock.failsForB) ["A"] none none Mock.world
        = SingleFileStrategy.upload (Mock.env Mock.failsForB) ["A"] none Mock.world
    ∧ IPFSClient.upload (Mock.env Mock.failsForB) [] none none Mock.world
        = BatchFileStrategy.upload (Mock.env Mock.failsForB) [] none Mock.world
    ∧ IPFSClient.upload (Mock.env Mock.failsForB) ["A", "C"] none none Mock.world
        = BatchFileStrategy.upload (Mock.env Mock.failsForB) ["A", "C"] none Mock.world :=
  ⟨(upload_strategy_selection (Mock.env Mock.failsForB) ["A"] none Mock.world).1 rfl,
    (upload_strategy_selection (Mock.env Mock.failsForB) [] none Mock.world).2.1 (by decide),
    (upload_strategy_selection (Mock.env Mock.failsForB) ["A", "C"] none Mock.world).2.1
      (by decide)⟩

/-- C5. For a file list whose length is not `1`, the single strategy returns an
`InvalidInput` error and leaves the state of the process as it was: no upload is
attempted. For a list of exactly one file it returns the error of the per-file
upload unchanged when that fails, and the one-element list holding its
identifier when it succeeds. -/
theorem single_strategy_spec {J : Type} (env : Env J) (files : List String)
    (metadata : Option J) (w : World) :
    (files.length ≠ 1 →
      SingleFileStrategy.upload env files metadata w
        = (Except.error
            (IPFSError.InvalidInput, "Single file strategy requires exactly one file"), w))
    ∧ (∀ file : String, files = [file] →
        (∀ e, (IPFSClient.performUploadDefault env file metadata w).1 = Except.error e →
          SingleFileStrategy.upload env files metadata w
            = (Except.error e, (IPFSClient.performUploadDefault env file metadata w).2))
        ∧ (∀ id, (IPFSClient.performUploadDefault env file metadata w).1 = Except.ok id →
          SingleFileStrategy.upload env files metadata w
            = (Except.ok [id], (IPFSClient.performUploadDefault env file metadata w).2))) := by
  refine ⟨fun h => ?_, fun file hf => ?_⟩
  · simp only [SingleFileStrategy.upload, dif_pos h]
  · subst hf
    refine ⟨fun e he => ?_, fun id hid => ?_⟩
    · simp [SingleFileStrategy.upload, he]
    · simp [SingleFileStrategy.upload, hid]

/-- The witness of C5: no file and two files are refused without a request; the
file `B`, whose uploads all fail, gives the transport error; the file `A` gives
its identifier. -/
theorem single_strategy_spec_witness :
    SingleFileStrategy.upload (Mock.env Mock.failsForB) [] none Mock.world
        = (Except.error
            (IPFSError.InvalidInput, "Single file strategy requires exactly one file"),
            Mock.world)
    ∧ SingleFileStrategy.upload (Mock.env Mock.failsForB) ["A", "C"] none Mock.world
        = (Except.error
            (IPFSError.InvalidInput, "Single file strategy requires exactly one file"),
            Mock.world)
    ∧ (SingleFileStrategy.upload (Mock.env Mock.failsForB) ["B"] none Mock.world).1
        = Except.error (IPFSError.CURLFailure, "Couldn't connect to server")
    ∧ (SingleFileStrategy.upload (Mock.env Mock.failsForB) ["A"] none Mock.world).1
        = Except.ok ["ipfs://QmA"] :=
  ⟨(single_strategy_spec (Mock.env Mock.failsForB) [] none Mock.world).1 (by decide),
    (single_strategy_spec (Mock.env Mock.failsForB) ["A", "C"] none Mock.world).1 (by decide),
    congrArg Prod.fst
      (((single_strategy_spec (Mock.env Mock.failsForB) ["B"] none Mock.world).2 "B" rfl).1
        (IPFSError.CURLFailure, "Couldn't connect to server") rfl),
    congrArg Prod.fst
      (((single_strategy_spec (Mock.env Mock.failsForB) ["A"] none Mock.world).2 "A" rfl).2
        "ipfs://QmA" rfl)⟩

/-- C6. For a path that does not exist, whatever `retries` and `retryDelay`,
`performUpload` returns a `FileNotFound` error and issues no attempt: the logger
state is untouched (no progress reset), and the trace grows by the one line
logged in verbose mode only, so no request is made and no sleep. -/
theorem performUpload_file_not_found {J : Type} (env : Env J) (filePath : String)
    (metadata : Option J) (retries retryDelay : Int) (w : World)
    (h : env.fsExists filePath = false) :
    (IPFSClient.performUpload env filePath metadata retries retryDelay w).1
        = Except.error (IPFSError.FileNotFound, "File not found: " ++ filePath)
    ∧ (IPFSClient.performUpload env filePath metadata retries retryDelay w).2.logger = w.logger
    ∧ (IPFSClient.performUpload env filePath metadata retries retryDelay w).2.trace
        = w.trace ++ (if w.logger.verboseMode = true
            then [Event.log LogLevel.ERROR ("File not found: " ++ filePath)] else [])
    ∧ (IPFSClient.performUpload env filePath metadata retries retryDelay w).2.requests
        = w.requests
    ∧ (IPFSClient.performUpload env filePath metadata retries retryDelay w).2.sleeps
        = w.sleeps := by
  have hw : (IPFSClient.performUpload env filePath metadata retries retryDelay w)
      = (Except.error (IPFSError.FileNotFound, "File not found: " ++ filePath),
          w.log LogLevel.ERROR ("File not found: " ++ filePath) true) := by
    simp only [IPFSClient.performUpload, if_pos h]
  rw [hw]
  refine ⟨rfl, rfl, ?_, World.requests_log _ _ _ _, ?_⟩
  · cases hv : w.logger.verboseMode <;> simp [World.log, Logger.log, hv]
  · cases hv : w.logger.verboseMode <;> simp [World.log, Logger.log, World.sleeps, hv]

/-- The witness of C6: the path `missing.txt`, with five retries. -/
theorem performUpload_file_not_found_witness :
    (IPFSClient.performUpload (Mock.env Mock.secondSucceeds) "missing.txt" none 5 1
        Mock.world).1
      = Except.error (IPFSError.FileNotFound, "File not found: " ++ "missing.txt")
    ∧ (IPFSClient.performUpload (Mock.env Mock.secondSucceeds) "missing.txt" none 5 1
        Mock.world).2.requests = [] :=
  ⟨(performUpload_file_not_found (Mock.env Mock.secondSucceeds) "missing.txt" none 5 1
      Mock.world rfl).1,
    (performUpload_file_not_found (Mock.env Mock.secondSucceeds) "missing.txt" none 5 1
      Mock.world rfl).2.2.2.1⟩

/-! ## deletePin -/

/-- The search of `find` answers `npos` exactly when the pattern is no
substring of the text. -/
theorem findFrom_eq_none_iff (pat : List Char) :
    ∀ (l : List Char) (pos : Nat), findFrom pat l pos = none ↔ ¬ pat <:+: l := by
  intro l
  induction l with
  | nil =>
    intro pos
    by_cases hp : pat = [] <;> simp [findFrom, hp]
  | cons c cs ih =>
    intro pos
    unfold findFrom
    by_cases hp : pat.isPrefixOf (c :: cs) = true
    · rw [if_pos hp]
      have : pat <:+: c :: cs := (List.isPrefixOf_iff_prefix.mp hp).isInfix
      simp [this]
    · rw [if_neg hp, ih (pos + 1), List.infix_cons_iff]
      have : ¬ pat <+: c :: cs := fun h => hp (List.isPrefixOf_iff_prefix.mpr h)
      simp [this]

theorem find_eq_none_iff (s pat : String) : find s pat = none ↔ ¬ pat.data <:+: s.data :=
  findFrom_eq_none_iff pat.data s.data 0

/-- C10. Whatever the transfer does, `deletePin` hands exactly one request to
libcurl, a DELETE, and never a second one. It succeeds if and only if the
transfer succeeded and either the body decodes to a structure without an `error`
field, or the body fails to decode and does not contain the substring `error`.
It returns the transport error when the transfer fails, and a `PinataError` when
the body decodes with an `error` field or fails to decode while containing the
substring `error`. -/
theorem deletePin_spec {J : Type} (env : Env J) (ipfsHash : String) (w : World) :
    (IPFSClient.deletePin env ipfsHash w).2.requests
        = w.requests ++ [IPFSClient.deleteRequest env ipfsHash]
    ∧ (IPFSClient.deleteRequest env ipfsHash).verb = HttpVerb.DELETE
    ∧ ((IPFSClient.deletePin env ipfsHash w).1 = Except.ok () ↔
        (env.curlPerform w.requests.length (IPFSClient.deleteRequest env ipfsHash)).code = 0
        ∧ ((∃ json, env.jsonParse
                (env.curlPerform w.requests.length
                  (IPFSClient.deleteRequest env ipfsHash)).response = Except.ok json
              ∧ env.isMember json "error" = false)
          ∨ ((∃ errors, env.jsonParse
                (env.curlPerform w.requests.length
                  (IPFSClient.deleteRequest env ipfsHash)).response = Except.error errors)
              ∧ ¬ "error".data <:+:
                (env.curlPerform w.requests.length
                  (IPFSClient.deleteRequest env ipfsHash)).response.data)))
    ∧ ((env.curlPerform w.requests.length (IPFSClient.deleteRequest env ipfsHash)).code ≠ 0 →
        (IPFSClient.deletePin env ipfsHash w).1
          = Except.error (IPFSError.CURLFailure, env.curlStrerror
              (env.curlPerform w.requests.length
                (IPFSClient.deleteRequest env ipfsHash)).code))
    ∧ ((env.curlPerform w.requests.length (IPFSClient.deleteRequest env ipfsHash)).code = 0 →
        ((∃ json, env.jsonParse
                (env.curlPerform w.requests.length
                  (IPFSClient.deleteRequest env ipfsHash)).response = Except.ok json
              ∧ env.isMember json "error" = true)
          ∨ ((∃ errors, env.jsonParse
                (env.curlPerform w.requests.length
                  (IPFSClient.deleteRequest env ipfsHash)).response = Except.error errors)
              ∧ "error".data <:+:
                (env.curlPerform w.requests.length
                  (IPFSClient.deleteRequest env ipfsHash)).response.data)) →
        ∃ detail, (IPFSClient.deletePin env ipfsHash w).1
          = Except.error (IPFSError.PinataError, detail)) := by
  obtain ⟨hreq, hres⟩ := IPFSClient.performCURLRequest_spec env
    (Config.PINATA_URL ++ "pinning/unpin/" ++ IPFSClient.hashStr ipfsHash) "DELETE" none w
  have hverb : (IPFSClient.deleteRequest env ipfsHash).verb = HttpVerb.DELETE := by
    simp [IPFSClient.deleteRequest, IPFSClient.buildRequest]
  unfold IPFSClient.deleteRequest at *
  generalize env.curlPerform w.requests.length
    (IPFSClient.buildRequest env
      (Config.PINATA_URL ++ "pinning/unpin/" ++ IPFSClient.hashStr ipfsHash) "DELETE" none)
    = res at *
  unfold IPFSClient.deletePin
  generalize IPFSClient.performCURLRequest env
    (Config.PINATA_URL ++ "pinning/unpin/" ++ IPFSClient.hashStr ipfsHash) "DELETE" none w
    = out at *
  obtain ⟨r, w1⟩ := out
  simp only at hreq hres
  subst hres
  refine ⟨?_, hverb, ?_⟩
  · by_cases hc : res.code = 0
    · simp only [hc, ne_eq, not_true_eq_false, if_false, IPFSClient.parseJSON]
      cases hp : env.jsonParse res.response with
      | error errors =>
        by_cases hf : find res.response "error" = none
        · simp [hf, World.requests_log, hreq]
        · simp [hf, World.requests_log, hreq]
      | ok json =>
        cases hm : env.isMember json "error" <;> simp [hm, World.requests_log, hreq]
    · simp [hc, hreq]
  · by_cases hc : res.code = 0
    · simp only [hc, ne_eq, not_true_eq_false, if_false, IPFSClient.parseJSON]
      cases hp : env.jsonParse res.response with
      | error errors =>
        by_cases hf : find res.response "error" = none
        · have hi := (find_eq_none_iff _ _).mp hf
          simp [hf, hi]
        · have hi : "error".data <:+: res.response.data := by
            by_contra hn
            exact hf ((find_eq_none_iff _ _).mpr hn)
          simp [hf, hi]
      | ok json =>
        cases hm : env.isMember json "error" <;> simp [hm]
    · simp [hc]

/-- The witness of C10: a transport that fails gives its own error; the answer
`OK`, which does not decode and holds no `error`, is taken as a success; the
answer `error=denied`, which decodes with an `error` field, is a `PinataError`;
each time exactly one DELETE request is made. -/
theorem deletePin_spec_witness :
    (IPFSClient.deletePin (Mock.env Mock.alwaysFails) "ipfs://QmXYZ" Mock.world).1
        = Except.error (IPFSError.CURLFailure, "Couldn't connect to server")
    ∧ (IPFSClient.deletePin (Mock.env (Mock.answers "OK")) "ipfs://QmXYZ" Mock.world).1
        = Except.ok ()
    ∧ (∃ detail,
        (IPFSClient.deletePin (Mock.env (Mock.answers "error=denied")) "QmXYZ" Mock.world).1
          = Except.error (IPFSError.PinataError, detail))
    ∧ (IPFSClient.deletePin (Mock.env (Mock.answers "OK")) "ipfs://QmXYZ" Mock.world).2.requests
        = [IPFSClient.deleteRequest (Mock.env (Mock.answers "OK")) "ipfs://QmXYZ"] :=
  ⟨(deletePin_spec (Mock.env Mock.alwaysFails) "ipfs://QmXYZ" Mock.world).2.2.2.1
      (Nat.succ_ne_zero 6),
    (deletePin_spec (Mock.env (Mock.answers "OK")) "ipfs://QmXYZ" Mock.world).2.2.1.mpr
      ⟨rfl, Or.inr ⟨⟨"no field", rfl⟩, by decide⟩⟩,
    (deletePin_spec (Mock.env (Mock.answers "error=denied")) "QmXYZ" Mock.world).2.2.2.2 rfl
      (Or.inl ⟨[("error", "denied")], rfl, rfl⟩),
    (deletePin_spec (Mock.env (Mock.answers "OK")) "ipfs://QmXYZ" Mock.world).1⟩

/-! ## The retry loop of performUpload -/

namespace IPFSClient

variable {J : Type}

/-- One turn of the loop whose attempt fails: one request is made, and the
loop either returns the error of this attempt (last attempt) or sleeps and goes
on with the next attempt. -/
theorem uploadLoop_step_fail (env : Env J) (filePath : String) (metadata : Option J)
    (retries retryDelay : Int) (fuel : Nat) (attempt : Int) (w : World)
    (hle : attempt ≤ retries)
    (hf : AttemptFails env
      (env.curlPerform w.requests.length (uploadRequest env filePath metadata))) :
    ∃ (e : IPFSError × String) (w1 : World),
      w1.requests = w.requests ++ [uploadRequest env filePath metadata]
      ∧ ((env.curlPerform w.requests.length (uploadRequest env filePath metadata)).code ≠ 0 →
          e = (IPFSError.CURLFailure, env.curlStrerror
            (env.curlPerform w.requests.length (uploadRequest env filePath metadata)).code))
      ∧ ((env.curlPerform w.requests.length (uploadRequest env filePath metadata)).code = 0 →
          e.1 = IPFSError.PinataError)
      ∧ uploadLoop env filePath metadata retries retryDelay (fuel + 1) attempt w
          = if attempt = retries then (Except.error e, w1)
            else uploadLoop env filePath metadata retries retryDelay fuel (attempt + 1)
              (w1.sleep retryDelay) := by
  obtain ⟨hreq, hres⟩ := performCURLRequest_spec env
    (Config.PINATA_URL ++ "pinning/pinFileToIPFS") "POST"
    (some (uploadMime env filePath metadata)) (w.resetProgress (env.steadyNow w.trace.length))
  rw [World.requests_resetProgress] at hreq hres
  unfold uploadRequest at *
  generalize env.curlPerform w.requests.length
    (buildRequest env (Config.PINATA_URL ++ "pinning/pinFileToIPFS") "POST"
      (some (uploadMime env filePath metadata))) = res at *
  simp only [uploadLoop, if_pos hle]
  generalize performCURLRequest env (Config.PINATA_URL ++ "pinning/pinFileToIPFS") "POST"
    (some (uploadMime env filePath metadata)) (w.resetProgress (env.steadyNow w.trace.length))
    = out at *
  obtain ⟨r, w1⟩ := out
  simp only at hreq hres
  subst hres
  by_cases hc : res.code = 0
  · simp only [hc, ne_eq, not_true_eq_false, if_false, parseJSON]
    rcases hf with hf | ⟨errors, hp⟩ | ⟨json, hp, hm⟩
    · exact absurd hc hf
    · simp only [hp]
      exact ⟨_, _, by rw [World.requests_log, hreq], fun h => h.elim, fun _ => rfl, rfl⟩
    · simp only [hp, hm, if_true]
      exact ⟨_, _, by rw [World.requests_log, hreq], fun h => h.elim, fun _ => rfl, rfl⟩
  · simp only [ne_eq, hc, not_false_eq_true, if_true]
    exact ⟨_, _, by rw [World.requests_log, hreq], fun _ => rfl, fun h => h.elim, rfl⟩

/-- One turn of the loop whose attempt succeeds: one request is made and the
loop returns the identifier at once. -/
theorem uploadLoop_step_ok (env : Env J) (filePath : String) (metadata : Option J)
    (retries retryDelay : Int) (fuel : Nat) (attempt : Int) (w : World) (h : String)
    (hle : attempt ≤ retries)
    (hs : AttemptSucceeds env
      (env.curlPerform w.requests.length (uploadRequest env filePath metadata)) h) :
    ∃ w1 : World,
      w1.requests = w.requests ++ [uploadRequest env filePath metadata]
      ∧ uploadLoop env filePath metadata retries retryDelay (fuel + 1) attempt w
          = (Except.ok ("ipfs://" ++ h), w1) := by
  obtain ⟨hreq, hres⟩ := performCURLRequest_spec env
    (Config.PINATA_URL ++ "pinning/pinFileToIPFS") "POST"
    (some (uploadMime env filePath metadata)) (w.resetProgress (env.steadyNow w.trace.length))
  rw [World.requests_resetProgress] at hreq hres
  unfold uploadRequest at *
  generalize env.curlPerform w.requests.length
    (buildRequest env (Config.PINATA_URL ++ "pinning/pinFileToIPFS") "POST"
      (some (uploadMime env filePath metadata))) = res at *
  simp only [uploadLoop, if_pos hle]
  generalize performCURLRequest env (Config.PINATA_URL ++ "pinning/pinFileToIPFS") "POST"
    (some (uploadMime env filePath metadata)) (w.resetProgress (env.steadyNow w.trace.length))
    = out at *
  obtain ⟨r, w1⟩ := out
  simp only at hreq hres
  subst hres
  obtain ⟨hc, json, hp, hm, hg⟩ := hs
  simp only [hc, ne_eq, not_true_eq_false, if_false, parseJSON, hp, hm, hg]
  exact ⟨w1, hreq, by simp⟩

/-- The count of iterations allowed never decides what the loop does: with any
count of at least `retries + 1 - attempt` the loop ends the same way, through
its own tests `attempt <= retries` and `attempt == retries`. -/
theorem uploadLoop_enough_fuel (env : Env J) (filePath : String) (metadata : Option J)
    (retries retryDelay : Int) :
    ∀ (fuel : Nat) (attempt : Int) (w : World), (retries + 1 - attempt).toNat ≤ fuel →
      uploadLoop env filePath metadata retries retryDelay fuel attempt w
        = uploadLoop env filePath metadata retries retryDelay
            (retries + 1 - attempt).toNat attempt w := by
  intro fuel
  induction fuel with
  | zero =>
    intro attempt w hle
    have h0 : (retries + 1 - attempt).toNat = 0 := by omega
    rw [h0]
  | succ n ih =>
    intro attempt w hle
    by_cases ha : attempt ≤ retries
    · obtain ⟨m, hm⟩ : ∃ m, (retries + 1 - attempt).toNat = m + 1 :=
        ⟨(retries + 1 - attempt).toNat - 1, by omega⟩
      have hm1 : (retries + 1 - (attempt + 1)).toNat = m := by omega
      have ihn : ∀ v : World, uploadLoop env filePath metadata retries retryDelay n (attempt + 1) v
          = uploadLoop env filePath metadata retries retryDelay m (attempt + 1) v := by
        intro v
        rw [ih (attempt + 1) v (by omega), hm1]
      rw [hm]
      simp only [uploadLoop, ihn]
    · have h0 : (retries + 1 - attempt).toNat = 0 := by omega
      rw [h0]
      simp only [uploadLoop, if_neg ha]

/-- The loop entered at `attempt` with every remaining attempt failing: it makes
one request per remaining attempt and returns the error of the last one. -/
theorem uploadLoop_all_fail (env : Env J) (filePath : String) (metadata : Option J)
    (retries retryDelay : Int) :
    ∀ (fuel : Nat) (attempt : Int) (w : World), attempt ≤ retries →
      fuel = (retries + 1 - attempt).toNat →
      (∀ i : Nat, i < fuel → AttemptFails env
        (env.curlPerform (w.requests.length + i) (uploadRequest env filePath metadata))) →
      (uploadLoop env filePath metadata retries retryDelay fuel attempt w).2.requests
          = w.requests ++ List.replicate fuel (uploadRequest env filePath metadata)
      ∧ ((env.curlPerform (w.requests.length + (fuel - 1))
            (uploadRequest env filePath metadata)).code ≠ 0 →
          (uploadLoop env filePath metadata retries retryDelay fuel attempt w).1
            = Except.error (IPFSError.CURLFailure, env.curlStrerror
                (env.curlPerform (w.requests.length + (fuel - 1))
                  (uploadRequest env filePath metadata)).code))
      ∧ ((env.curlPerform (w.requests.length + (fuel - 1))
            (uploadRequest env filePath metadata)).code = 0 →
          ∃ detail, (uploadLoop env filePath metadata retries retryDelay fuel attempt w).1
            = Except.error (IPFSError.PinataError, detail)) := by
  intro fuel
  induction fuel with
  | zero =>
    intro attempt w hle hfuel _
    omega
  | succ n ih =>
    intro attempt w hle hfuel hfail
    obtain ⟨e, w1, hreq, he1, he2, hloop⟩ := uploadLoop_step_fail env filePath metadata
      retries retryDelay n attempt w hle (by simpa using hfail 0 (Nat.succ_pos n))
    rw [hloop]
    by_cases hlast : attempt = retries
    · have hn : n = 0 := by omega
      subst hn
      have hz : w.requests.length + (0 + 1 - 1) = w.requests.length := by omega
      rw [if_pos hlast, hz]
      refine ⟨by simp [hreq], fun hc => by rw [he1 hc], fun hc => ⟨e.2, ?_⟩⟩
      have := he2 hc
      cases e with
      | mk k d => simp only at this; rw [this]
    · simp only [if_neg hlast]
      have hlen : (w1.sleep retryDelay).requests.length = w.requests.length + 1 := by
        rw [World.requests_sleep, hreq, List.length_append, List.length_singleton]
      have hn : 1 ≤ n := by omega
      have hih := ih (attempt + 1) (w1.sleep retryDelay) (by omega) (by omega)
        (fun i hi => by
          rw [hlen, Nat.add_assoc, Nat.add_comm 1 i]
          exact hfail (i + 1) (by omega))
      rw [hlen] at hih
      have hidx : w.requests.length + 1 + (n - 1) = w.requests.length + (n + 1 - 1) := by omega
      rw [hidx] at hih
      refine ⟨?_, hih.2.1, hih.2.2⟩
      rw [hih.1, World.requests_sleep, hreq]
      simp [List.replicate_succ]

/-- The loop entered at `attempt` whose first `k` attempts fail and whose next
attempt succeeds with hash `h`: it makes `k + 1` requests and returns
`ipfs://h`. -/
theorem uploadLoop_success_at (env : Env J) (filePath : String) (metadata : Option J)
    (retries retryDelay : Int) (h : String) :
    ∀ (k fuel : Nat) (attempt : Int) (w : World), attempt ≤ retries →
      fuel = (retries + 1 - attempt).toNat → k < fuel →
      (∀ i : Nat, i < k → AttemptFails env
        (env.curlPerform (w.requests.length + i) (uploadRequest env filePath metadata))) →
      AttemptSucceeds env
        (env.curlPerform (w.requests.length + k) (uploadRequest env filePath metadata)) h →
      (uploadLoop env filePath metadata retries retryDelay fuel attempt w).1
          = Except.ok ("ipfs://" ++ h)
      ∧ (uploadLoop env filePath metadata retries retryDelay fuel attempt w).2.requests
          = w.requests ++ List.replicate (k + 1) (uploadRequest env filePath metadata) := by
  intro k
  induction k with
  | zero =>
    intro fuel attempt w hle hfuel hk _ hs
    obtain ⟨n, rfl⟩ : ∃ n, fuel = n + 1 := ⟨fuel - 1, by omega⟩
    obtain ⟨w1, hreq, hloop⟩ := uploadLoop_step_ok env filePath metadata retries retryDelay
      n attempt w h hle (by simpa using hs)
    rw [hloop]
    exact ⟨rfl, by simpa using hreq⟩
  | succ k ih =>
    intro fuel attempt w hle hfuel hk hfail hs
    obtain ⟨n, rfl⟩ : ∃ n, fuel = n + 1 := ⟨fuel - 1, by omega⟩
    obtain ⟨e, w1, hreq, _, _, hloop⟩ := uploadLoop_step_fail env filePath metadata
      retries retryDelay n attempt w hle (by simpa using hfail 0 (Nat.succ_pos k))
    have hlast : attempt ≠ retries := by omega
    rw [hloop, if_neg hlast]
    have hlen : (w1.sleep retryDelay).requests.length = w.requests.length + 1 := by
      rw [World.requests_sleep, hreq, List.length_append, List.length_singleton]
    have hih := ih n (attempt + 1) (w1.sleep retryDelay) (by omega) (by omega) (by omega)
      (fun i hi => by
        rw [hlen, Nat.add_assoc, Nat.add_comm 1 i]
        exact hfail (i + 1) (by omega))
      (by
        rw [hlen, Nat.add_assoc, Nat.add_comm 1 k]
        exact hs)
    refine ⟨hih.1, ?_⟩
    rw [hih.2, World.requests_sleep, hreq]
    simp [List.replicate_succ]

end IPFSClient

/-- C1. For `retries ≥ 0` and an existing file, if every attempt fails (the
transport fails, or the body does not decode, or the decoded body lacks the field
`IpfsHash`), `performUpload` makes exactly `retries + 1` requests, all of them the
multipart POST of the file, and returns the error of the last attempt: the
pair `(CURLFailure, curl_easy_strerror(res))` of the transport when the last
attempt failed at transport level, a `PinataError` otherwise. -/
theorem performUpload_all_attempts_fail {J : Type} (env : Env J) (filePath : String)
    (metadata : Option J) (retries retryDelay : Int) (w : World)
    (hr : 0 ≤ retries) (hex : env.fsExists filePath = true)
    (hfail : ∀ i : Nat, i < retries.toNat + 1 → IPFSClient.AttemptFails env
      (env.curlPerform (w.requests.length + i)
        (IPFSClient.uploadRequest env filePath metadata))) :
    (IPFSClient.performUpload env filePath metadata retries retryDelay w).2.requests
        = w.requests
          ++ List.replicate (retries.toNat + 1) (IPFSClient.uploadRequest env filePath metadata)
    ∧ (IPFSClient.uploadRequest env filePath metadata).verb = HttpVerb.MIMEPOST
    ∧ ((env.curlPerform (w.requests.length + retries.toNat)
          (IPFSClient.uploadRequest env filePath metadata)).code ≠ 0 →
        (IPFSClient.performUpload env filePath metadata retries retryDelay w).1
          = Except.error (IPFSError.CURLFailure, env.curlStrerror
              (env.curlPerform (w.requests.length + retries.toNat)
                (IPFSClient.uploadRequest env filePath metadata)).code))
    ∧ ((env.curlPerform (w.requests.length + retries.toNat)
          (IPFSClient.uploadRequest env filePath metadata)).code = 0 →
        ∃ detail, (IPFSClient.performUpload env filePath metadata retries retryDelay w).1
          = Except.error (IPFSError.PinataError, detail)) := by
  have hfuel : (retries + 1).toNat = retries.toNat + 1 := by omega
  have hpu : IPFSClient.performUpload env filePath metadata retries retryDelay w
      = IPFSClient.uploadLoop env filePath metadata retries retryDelay
          (retries.toNat + 1) 0 w := by
    simp [IPFSClient.performUpload, hex, hfuel]
  have hloop := IPFSClient.uploadLoop_all_fail env filePath metadata retries retryDelay
    (retries.toNat + 1) 0 w hr (by omega) hfail
  rw [hpu]
  refine ⟨hloop.1, ?_, hloop.2.1, hloop.2.2⟩
  simp [IPFSClient.uploadRequest, IPFSClient.buildRequest]

/-- The witness of C1: `retries = 2` and a transport that always fails give
exactly three requests and the error of the transport. -/
theorem performUpload_all_attempts_fail_witness :
    (IPFSClient.performUpload (Mock.env Mock.alwaysFails) "A" none 2 1 Mock.world).2.requests
        = List.replicate 3 (IPFSClient.uploadRequest (Mock.env Mock.alwaysFails) "A" none)
    ∧ (IPFSClient.performUpload (Mock.env Mock.alwaysFails) "A" none 2 1 Mock.world).1
        = Except.error (IPFSError.CURLFailure, "Couldn't connect to server") :=
  ⟨(performUpload_all_attempts_fail (Mock.env Mock.alwaysFails) "A" none 2 1 Mock.world
      (by decide) rfl (fun _ _ => Or.inl (Nat.succ_ne_zero 6))).1,
    (performUpload_all_attempts_fail (Mock.env Mock.alwaysFails) "A" none 2 1 Mock.world
      (by decide) rfl (fun _ _ => Or.inl (Nat.succ_ne_zero 6))).2.2.1 (by decide)⟩

/-- C2. For `retries ≥ 0`, `1 ≤ k ≤ retries + 1` and an existing file, if the
attempts `1 .. k - 1` fail and attempt `k` returns a body that decodes to a structure
with field `IpfsHash = h`, then `performUpload` returns the success
value `ipfs://h` and makes exactly `k` requests: none after the successful one. -/
theorem performUpload_success_at {J : Type} (env : Env J) (filePath : String)
    (metadata : Option J) (retries retryDelay : Int) (w : World) (k : Nat) (h : String)
    (hr : 0 ≤ retries) (hk1 : 1 ≤ k) (hk : k ≤ retries.toNat + 1)
    (hex : env.fsExists filePath = true)
    (hfail : ∀ i : Nat, i < k - 1 → IPFSClient.AttemptFails env
      (env.curlPerform (w.requests.length + i)
        (IPFSClient.uploadRequest env filePath metadata)))
    (hs : IPFSClient.AttemptSucceeds env
      (env.curlPerform (w.requests.length + (k - 1))
        (IPFSClient.uploadRequest env filePath metadata)) h) :
    (IPFSClient.performUpload env filePath metadata retries retryDelay w).1
        = Except.ok ("ipfs://" ++ h)
    ∧ (IPFSClient.performUpload env filePath metadata retries retryDelay w).2.requests
        = w.requests ++ List.replicate k (IPFSClient.uploadRequest env filePath metadata) := by
  have hfuel : (retries + 1).toNat = retries.toNat + 1 := by omega
  have hpu : IPFSClient.performUpload env filePath metadata retries retryDelay w
      = IPFSClient.uploadLoop env filePath metadata retries retryDelay
          (retries.toNat + 1) 0 w := by
    simp [IPFSClient.performUpload, hex, hfuel]
  have hloop := IPFSClient.uploadLoop_success_at env filePath metadata retries retryDelay h
    (k - 1) (retries.toNat + 1) 0 w hr (by omega) (by omega) hfail hs
  have hk' : k - 1 + 1 = k := by omega
  rw [hk'] at hloop
  rw [hpu]
  exact hloop

/-- The witness of C2: `retries = 2` and a transport whose second transfer
succeeds give the identifier and exactly two requests. -/
theorem performUpload_success_at_witness :
    (IPFSClient.performUpload (Mock.env Mock.secondSucceeds) "A" none 2 1 Mock.world).1
        = Except.ok ("ipfs://" ++ "QmXYZ")
    ∧ (IPFSClient.performUpload (Mock.env Mock.secondSucceeds) "A" none 2 1
        Mock.world).2.requests
        = List.replicate 2 (IPFSClient.uploadRequest (Mock.env Mock.secondSucceeds) "A" none) :=
  performUpload_success_at (Mock.env Mock.secondSucceeds) "A" none 2 1 Mock.world 2 "QmXYZ"
    (by decide) (by decide) (by decide) rfl
    (fun i hi => by
      have hi0 : i = 0 := by omega
      subst hi0
      exact Or.inl (by decide))
    ⟨rfl, [("IpfsHash", "QmXYZ")], rfl, rfl, rfl⟩

/-! ## The batch strategy -/

/-- One turn of the loop of the batch strategy leaves the state `afterFile`
describes, whatever the outcome of the upload. -/
theorem BatchFileStrategy.uploadLoop_cons {J : Type} (env : Env J) (metadata : Option J)
    (file : String) (rest results : List String) (w : World) :
    ∃ results1 : List String,
      BatchFileStrategy.uploadLoop env metadata (file :: rest) results w
        = BatchFileStrategy.uploadLoop env metadata rest results1
            (BatchFileStrategy.afterFile env metadata w file)
      ∧ results1 = results
          ++ ((IPFSClient.performUploadDefault env file metadata w).1.toOption).toList := by
  unfold BatchFileStrategy.afterFile
  cases hr : (IPFSClient.performUploadDefault env file metadata w).1 with
  | error e =>
    exact ⟨results, by simp [BatchFileStrategy.uploadLoop, hr], by simp [Except.toOption]⟩
  | ok id =>
    exact ⟨results ++ [id], by simp [BatchFileStrategy.uploadLoop, hr],
      by simp [Except.toOption]⟩

/-- The loop of the batch strategy appends to `results`, in input order, the
identifier of every file whose upload succeeded, and leaves the state that the
files leave one after the other. -/
theorem BatchFileStrategy.uploadLoop_spec {J : Type} (env : Env J) (metadata : Option J) :
    ∀ (files results : List String) (w : World),
      BatchFileStrategy.uploadLoop env metadata files results w
        = (results ++ (BatchFileStrategy.outcomes env metadata files w).filterMap
              Except.toOption,
            files.foldl (BatchFileStrategy.afterFile env metadata) w) := by
  intro files
  induction files with
  | nil =>
    intro results w
    simp [BatchFileStrategy.uploadLoop, BatchFileStrategy.outcomes]
  | cons file rest ih =>
    intro results w
    obtain ⟨results1, hloop, hres⟩ :=
      BatchFileStrategy.uploadLoop_cons env metadata file rest results w
    rw [hloop, ih, hres]
    cases hr : (IPFSClient.performUploadDefault env file metadata w).1 with
    | error e => simp [BatchFileStrategy.outcomes, hr, Except.toOption]
    | ok id => simp [BatchFileStrategy.outcomes, hr, Except.toOption]

/-- The outcome listed at position `i` is the result of the per-file upload of
the file at position `i`, run in the state the files before it have left. -/
theorem BatchFileStrategy.outcomes_getElem_eq {J : Type} (env : Env J) (metadata : Option J) :
    ∀ (files : List String) (w : World) (i : Nat),
      (BatchFileStrategy.outcomes env metadata files w)[i]?
        = (files[i]?).map fun file =>
            (IPFSClient.performUploadDefault env file metadata
              ((files.take i).foldl (BatchFileStrategy.afterFile env metadata) w)).1 := by
  intro files
  induction files with
  | nil => intro w i; simp [BatchFileStrategy.outcomes]
  | cons file rest ih =>
    intro w i
    cases i with
    | zero => simp [BatchFileStrategy.outcomes]
    | succ j => simp [BatchFileStrategy.outcomes, ih]

theorem BatchFileStrategy.outcomes_length {J : Type} (env : Env J) (metadata : Option J) :
    ∀ (files : List String) (w : World),
      (BatchFileStrategy.outcomes env metadata files w).length = files.length := by
  intro files
  induction files with
  | nil => intro w; rfl
  | cons file rest ih =>
    intro w
    simp [BatchFileStrategy.outcomes, ih]

/-- C3. For every list of files and whatever the per-file uploads do, the batch
strategy returns no error but the success value that holds, in input order,
exactly the identifiers of the files whose per-file upload succeeded, so that
its length is the number of uploads that succeeded. The state it leaves is the
state the files leave one after the other, in input order, each by one per-file
upload and one logged line: the upload of the file at position `i` is run in the
state left by the files before it, its result is the outcome at position `i`,
and nothing is done before, between or after. For the files `A`, `B`, `C` with a
transport that fails every upload of `B`, the outcomes are success, transport
error, success, the result is the two identifiers of `A` and `C`, and the requests
made are one for `A`, three for `B`, one for `C`, in that order. -/
theorem batch_strategy_spec {J : Type} (env : Env J) (files : List String)
    (metadata : Option J) (w : World) :
    (BatchFileStrategy.upload env files metadata w).1
        = Except.ok ((BatchFileStrategy.outcomes env metadata files w).filterMap
            Except.toOption)
    ∧ (BatchFileStrategy.upload env files metadata w).2
        = files.foldl
            (fun (v : World) (file : String) =>
              match (IPFSClient.performUploadDefault env file metadata v).1 with
              | Except.ok id =>
                (IPFSClient.performUploadDefault env file metadata v).2.log LogLevel.INFO
                  ("Uploaded " ++ file ++ " to " ++ id) true
              | Except.error e =>
                (IPFSClient.performUploadDefault env file metadata v).2.log LogLevel.ERROR
                  ("Failed to upload " ++ file ++ ": " ++ IPFSClient.errorToString e) true)
            w
    ∧ (∀ i : Nat, (BatchFileStrategy.outcomes env metadata files w)[i]?
        = (files[i]?).map fun file =>
            (IPFSClient.performUploadDefault env file metadata
              ((files.take i).foldl (BatchFileStrategy.afterFile env metadata) w)).1)
    ∧ (∀ e, (BatchFileStrategy.upload env files metadata w).1 ≠ Except.error e)
    ∧ (BatchFileStrategy.outcomes env metadata files w).length = files.length
    ∧ ((BatchFileStrategy.outcomes env metadata files w).filterMap Except.toOption).length
        = (BatchFileStrategy.outcomes env metadata files w).countP
            (fun r => r.toOption.isSome)
    ∧ ((BatchFileStrategy.outcomes env metadata files w).filterMap Except.toOption).length
        ≤ files.length
    ∧ BatchFileStrategy.outcomes (Mock.env Mock.failsForB) none ["A", "B", "C"] Mock.world
        = [Except.ok "ipfs://QmA",
            Except.error (IPFSError.CURLFailure, "Couldn't connect to server"),
            Except.ok "ipfs://QmC"]
    ∧ (BatchFileStrategy.upload (Mock.env Mock.failsForB) ["A", "B", "C"] none Mock.world).1
        = Except.ok ["ipfs://QmA", "ipfs://QmC"]
    ∧ (BatchFileStrategy.upload (Mock.env Mock.failsForB) ["A", "B", "C"] none
        Mock.world).2.requests.map Mock.fileOf = ["A", "B", "B", "B", "C"] := by
  have hspec := BatchFileStrategy.uploadLoop_spec env metadata files [] w
  have hres : (BatchFileStrategy.upload env files metadata w).1
      = Except.ok ((BatchFileStrategy.outcomes env metadata files w).filterMap
          Except.toOption) := by
    simp [BatchFileStrategy.upload, hspec]
  have hlen := BatchFileStrategy.outcomes_length env metadata files w
  refine ⟨hres, ?_, BatchFileStrategy.outcomes_getElem_eq env metadata files w,
    fun e he => ?_, hlen, ?_, ?_, rfl, rfl, rfl⟩
  · simp only [BatchFileStrategy.upload, hspec]
    rfl
  · rw [hres] at he
    exact Except.noConfusion he
  · generalize BatchFileStrategy.outcomes env metadata files w = os
    induction os with
    | nil => rfl
    | cons o os ih =>
      cases o with
      | error e => simpa [Except.toOption] using ih
      | ok id => simpa [Except.toOption] using ih
  · rw [← hlen]
    exact List.length_filterMap_le _ _

/-- The witness of C3: the files `A`, `B`, `C` with a transport that fails every
upload of `B`. -/
theorem batch_strategy_spec_witness :
    (BatchFileStrategy.upload (Mock.env Mock.failsForB) ["A", "B", "C"] none Mock.world).1
        = Except.ok ["ipfs://QmA", "ipfs://QmC"]
    ∧ (BatchFileStrategy.outcomes (Mock.env Mock.failsForB) none ["A", "B", "C"]
        Mock.world).length = 3 :=
  ⟨(batch_strategy_spec (Mock.env Mock.failsForB) ["A", "B", "C"] none Mock.world).1.trans rfl,
    (batch_strategy_spec (Mock.env Mock.failsForB) ["A", "B", "C"] none
      Mock.world).2.2.2.2.1⟩

/-! ## The strip of the leading `ipfs://` -/

namespace IPFSClient

/-- The characters of the hash after the strip: seven characters are dropped
when the hash begins with `ipfs://`, none otherwise. -/
theorem hashStr_data (s : String) :
    (hashStr s).data = if "ipfs://".data <+: s.data then s.data.drop 7 else s.data := by
  have hlen : "ipfs://".data.length = 7 := rfl
  unfold hashStr substr substrFrom
  by_cases h : "ipfs://".data <+: s.data
  · have ht : (s.data.drop 0).take 7 = "ipfs://".data := by
      rw [List.drop_zero]
      have := List.prefix_iff_eq_take.mp h
      rw [hlen] at this
      exact this.symm
    have hc : (⟨(s.data.drop 0).take 7⟩ : String) = "ipfs://" := by rw [ht]
    rw [if_pos hc, if_pos h]
  · have hc : ¬ (⟨(s.data.drop 0).take 7⟩ : String) = "ipfs://" := by
      intro he
      apply h
      have hd : (s.data.drop 0).take 7 = "ipfs://".data := congrArg String.data he
      rw [List.drop_zero] at hd
      rw [List.prefix_iff_eq_take, hlen]
      exact hd.symm
    rw [if_neg hc, if_neg h]

/-- A hash that does not begin with `ipfs://` is left as it is. -/
theorem hashStr_of_not_begins (s : String) (h : ¬ "ipfs://".data <+: s.data) :
    hashStr s = s := by
  have hd := hashStr_data s
  rw [if_neg h] at hd
  exact String.ext hd

/-- One leading `ipfs://` put in front of any string is taken off again. -/
theorem hashStr_append (h : String) : hashStr ("ipfs://" ++ h) = h := by
  have hd := hashStr_data ("ipfs://" ++ h)
  have hp : "ipfs://".data <+: ("ipfs://" ++ h).data := by
    rw [String.data_append]
    exact List.prefix_append _ _
  rw [if_pos hp, String.data_append] at hd
  have h7 : ("ipfs://".data ++ h.data).drop 7 = h.data := List.drop_left "ipfs://".data h.data
  rw [h7] at hd
  exact String.ext hd

/-- A second strip changes nothing exactly when the stripped hash does not begin
with `ipfs://` itself. -/
theorem hashStr_hashStr_iff (s : String) :
    hashStr (hashStr s) = hashStr s ↔ ¬ "ipfs://".data <+: (hashStr s).data := by
  constructor
  · intro he hp
    have hd := hashStr_data (hashStr s)
    rw [if_pos hp, he] at hd
    have hl := congrArg List.length hd
    have h7 : "ipfs://".data.length ≤ (hashStr s).data.length := hp.length_le
    have h7' : "ipfs://".data.length = 7 := rfl
    rw [List.length_drop] at hl
    omega
  · intro hp
    exact hashStr_of_not_begins _ hp

end IPFSClient

/-- C13, the counterexample: the hash `ipfs://ipfs://QmXYZ` carries the prefix
twice; one strip leaves `ipfs://QmXYZ`, a second strip leaves `QmXYZ`. -/
theorem hashStr_not_idempotent :
    IPFSClient.hashStr "ipfs://ipfs://QmXYZ" = "ipfs://QmXYZ"
    ∧ IPFSClient.hashStr (IPFSClient.hashStr "ipfs://ipfs://QmXYZ") = "QmXYZ"
    ∧ IPFSClient.hashStr (IPFSClient.hashStr "ipfs://ipfs://QmXYZ")
        ≠ IPFSClient.hashStr "ipfs://ipfs://QmXYZ" := by
  decide

/-- C13, as amended. The strip used by `retrieveContent` and `deletePin` takes
off one leading `ipfs://`. Stripping the result of a strip gives the same string
as stripping once exactly for the strings that do not begin with two copies of
the prefix, `ipfs://ipfs://`; among them are every string shorter than seven
characters (which the strip leaves as it is), every string without the prefix
and every string that carries it once at its start. -/
theorem hashStr_idempotent_iff (s : String) :
    (IPFSClient.hashStr (IPFSClient.hashStr s) = IPFSClient.hashStr s
      ↔ ¬ "ipfs://ipfs://".data <+: s.data)
    ∧ (s.length < 7 → IPFSClient.hashStr s = s)
    ∧ (¬ "ipfs://".data <+: s.data → IPFSClient.hashStr s = s)
    ∧ (¬ "ipfs://".data <+: s.data →
        IPFSClient.hashStr (IPFSClient.hashStr ("ipfs://" ++ s))
          = IPFSClient.hashStr ("ipfs://" ++ s)) := by
  have hlen : "ipfs://".data.length = 7 := rfl
  have hpp : "ipfs://ipfs://".data = "ipfs://".data ++ "ipfs://".data := rfl
  refine ⟨?_, ?_, IPFSClient.hashStr_of_not_begins s, ?_⟩
  · rw [IPFSClient.hashStr_hashStr_iff, IPFSClient.hashStr_data, hpp]
    by_cases hp : "ipfs://".data <+: s.data
    · rw [if_pos hp]
      obtain ⟨t, ht⟩ := hp
      have hdrop : s.data.drop 7 = t := by
        rw [← ht]
        exact List.drop_left "ipfs://".data t
      rw [hdrop, ← ht, List.prefix_append_right_inj]
    · rw [if_neg hp]
      constructor
      · intro _ hpp2
        exact hp ((List.prefix_append _ _).trans hpp2)
      · intro _
        exact hp
  · intro hs
    apply IPFSClient.hashStr_of_not_begins
    intro hp
    have := hp.length_le
    have hsl : s.length = s.data.length := rfl
    omega
  · intro hp
    rw [IPFSClient.hashStr_append]
    exact IPFSClient.hashStr_of_not_begins s hp

/-- The witness of C13 as amended: `Qm` is shorter than seven characters,
`ipfs://QmXYZ` carries the prefix once. -/
theorem hashStr_idempotent_iff_witness :
    IPFSClient.hashStr "Qm" = "Qm"
    ∧ IPFSClient.hashStr (IPFSClient.hashStr "ipfs://QmXYZ")
        = IPFSClient.hashStr "ipfs://QmXYZ" :=
  ⟨(hashStr_idempotent_iff "Qm").2.1 (by decide),
    (hashStr_idempotent_iff "ipfs://QmXYZ").1.mpr (by decide)⟩

/-! ## retrieveContent and listPins -/

/-- What `retrieveContent` does: one request, a GET to the gateway URL followed
by the stripped hash, and the outcome of `performCURLRequest` handed on as it
is. -/
theorem IPFSClient.retrieveContent_spec {J : Type} (env : Env J) (ipfsHash : String)
    (w : World) :
    (IPFSClient.retrieveContent env ipfsHash w).2.requests
        = w.requests ++ [IPFSClient.getRequest env (IPFSClient.hashStr ipfsHash)]
    ∧ (IPFSClient.retrieveContent env ipfsHash w).1
        = (if (env.curlPerform w.requests.length
                (IPFSClient.getRequest env (IPFSClient.hashStr ipfsHash))).code ≠ 0
          then Except.error (IPFSError.CURLFailure, env.curlStrerror
            (env.curlPerform w.requests.length
              (IPFSClient.getRequest env (IPFSClient.hashStr ipfsHash))).code)
          else Except.ok
            (env.curlPerform w.requests.length
              (IPFSClient.getRequest env (IPFSClient.hashStr ipfsHash))).response) :=
  IPFSClient.performCURLRequest_spec env
    (Config.IPFS_GATEWAY ++ IPFSClient.hashStr ipfsHash) "GET" none w

/-- C12. For a hash `h` that does not begin with `ipfs://`, the calls
`retrieveContent("ipfs://" ++ h)` and `retrieveContent(h)` each hand exactly one
request to libcurl, the same one: a GET to the URL `IPFS_GATEWAY ++ h`. Each
returns the body as received when the transfer succeeds and the error pair of
the transport when it fails; no second request is made, and started in the same
state the two calls do the same. -/
theorem retrieveContent_prefix_irrelevant {J : Type} (env : Env J) (h : String)
    (w1 w2 : World) (hp : ¬ "ipfs://".data <+: h.data) :
    (IPFSClient.retrieveContent env ("ipfs://" ++ h) w1).2.requests
        = w1.requests ++ [IPFSClient.getRequest env h]
    ∧ (IPFSClient.retrieveContent env h w2).2.requests
        = w2.requests ++ [IPFSClient.getRequest env h]
    ∧ (IPFSClient.getRequest env h).url = Config.IPFS_GATEWAY ++ h
    ∧ (IPFSClient.getRequest env h).verb = HttpVerb.HTTPGET
    ∧ (IPFSClient.retrieveContent env ("ipfs://" ++ h) w1).1
        = (if (env.curlPerform w1.requests.length (IPFSClient.getRequest env h)).code ≠ 0
          then Except.error (IPFSError.CURLFailure, env.curlStrerror
            (env.curlPerform w1.requests.length (IPFSClient.getRequest env h)).code)
          else Except.ok
            (env.curlPerform w1.requests.length (IPFSClient.getRequest env h)).response)
    ∧ (IPFSClient.retrieveContent env h w2).1
        = (if (env.curlPerform w2.requests.length (IPFSClient.getRequest env h)).code ≠ 0
          then Except.error (IPFSError.CURLFailure, env.curlStrerror
            (env.curlPerform w2.requests.length (IPFSClient.getRequest env h)).code)
          else Except.ok
            (env.curlPerform w2.requests.length (IPFSClient.getRequest env h)).response)
    ∧ IPFSClient.retrieveContent env ("ipfs://" ++ h) w1
        = IPFSClient.retrieveContent env h w1 := by
  have ha := IPFSClient.retrieveContent_spec env ("ipfs://" ++ h) w1
  have hb := IPFSClient.retrieveContent_spec env h w2
  rw [IPFSClient.hashStr_append] at ha
  rw [IPFSClient.hashStr_of_not_begins h hp] at hb
  refine ⟨ha.1, hb.1, ?_, ?_, ha.2, hb.2, ?_⟩
  · simp [IPFSClient.getRequest, IPFSClient.buildRequest]
  · simp [IPFSClient.getRequest, IPFSClient.buildRequest]
  · unfold IPFSClient.retrieveContent
    rw [IPFSClient.hashStr_append, IPFSClient.hashStr_of_not_begins h hp]

/-- The witness of C12: the hash `QmXYZ`, with a gateway that answers `hello`:
with and without the prefix, one GET to `https://ipfs.io/ipfs/QmXYZ` and the
body `hello`. -/
theorem retrieveContent_prefix_irrelevant_witness :
    (IPFSClient.retrieveContent (Mock.env (Mock.answers "hello")) ("ipfs://" ++ "QmXYZ")
        Mock.world).2.requests
      = [IPFSClient.getRequest (Mock.env (Mock.answers "hello")) "QmXYZ"]
    ∧ (IPFSClient.retrieveContent (Mock.env (Mock.answers "hello")) "QmXYZ"
        Mock.world).2.requests
      = [IPFSClient.getRequest (Mock.env (Mock.answers "hello")) "QmXYZ"]
    ∧ (IPFSClient.getRequest (Mock.env (Mock.answers "hello")) "QmXYZ").url
      = "https://ipfs.io/ipfs/QmXYZ"
    ∧ (IPFSClient.retrieveContent (Mock.env (Mock.answers "hello")) ("ipfs://" ++ "QmXYZ")
        Mock.world).1 = Except.ok "hello" :=
  ⟨(retrieveContent_prefix_irrelevant (Mock.env (Mock.answers "hello")) "QmXYZ" Mock.world
      Mock.world (by decide)).1,
    (retrieveContent_prefix_irrelevant (Mock.env (Mock.answers "hello")) "QmXYZ" Mock.world
      Mock.world (by decide)).2.1,
    (retrieveContent_prefix_irrelevant (Mock.env (Mock.answers "hello")) "QmXYZ" Mock.world
      Mock.world (by decide)).2.2.1.trans (by decide),
    (retrieveContent_prefix_irrelevant (Mock.env (Mock.answers "hello")) "QmXYZ" Mock.world
      Mock.world (by decide)).2.2.2.2.1.trans rfl⟩

/-- What `listPins` does when the transfer succeeds: one GET request, and the
body decoded by `parseJSON`: the decoded structure, or the `JSONParseError` of a
body that does not parse. -/
theorem IPFSClient.listPins_of_transport_ok {J : Type} (env : Env J) (group : Option String)
    (w : World)
    (hok : (env.curlPerform w.requests.length (IPFSClient.listRequest env group)).code = 0) :
    (IPFSClient.listPins env group w).1
        = some (IPFSClient.parseJSON env
            (env.curlPerform w.requests.length (IPFSClient.listRequest env group)).response)
    ∧ (IPFSClient.listPins env group w).2.requests
        = w.requests ++ [IPFSClient.listRequest env group] := by
  cases group with
  | none =>
    obtain ⟨hreq, hres⟩ := IPFSClient.performCURLRequest_spec env
      (Config.PINATA_URL ++ "data/pinList") "GET" none w
    simp only [IPFSClient.listRequest] at hok ⊢
    rw [if_neg (by simpa using hok)] at hres
    simp only [IPFSClient.listPins, hres, IPFSClient.deref]
    exact ⟨trivial, hreq⟩
  | some g =>
    obtain ⟨hreq, hres⟩ := IPFSClient.performCURLRequest_spec env
      (Config.PINATA_URL ++ "data/pinList" ++ ("?metadata[name]=" ++ g)) "GET" none w
    simp only [IPFSClient.listRequest] at hok ⊢
    rw [if_neg (by simpa using hok)] at hres
    simp only [IPFSClient.listPins, hres, IPFSClient.deref]
    exact ⟨trivial, hreq⟩

/-- C11, what the code does where it departs from the claim. When the GET of
`listPins` fails at transport level, `listPins` does not return the transport
error: it applies `operator*` to the failed result of `performCURLRequest`,
which has no defined behaviour, so no result-or-error value comes back, and in
particular not the pair `(CURLFailure, curl_easy_strerror(res))`. The one
request has been made all the same. -/
theorem listPins_transport_failure {J : Type} (env : Env J) (group : Option String)
    (w : World)
    (hfail : (env.curlPerform w.requests.length (IPFSClient.listRequest env group)).code ≠ 0) :
    (IPFSClient.listPins env group w).1 = none
    ∧ (IPFSClient.listPins env group w).1
        ≠ some (Except.error (IPFSError.CURLFailure, env.curlStrerror
            (env.curlPerform w.requests.length (IPFSClient.listRequest env group)).code))
    ∧ (IPFSClient.listPins env group w).2.requests
        = w.requests ++ [IPFSClient.listRequest env group] := by
  have key : (IPFSClient.listPins env group w).1 = none
      ∧ (IPFSClient.listPins env group w).2.requests
        = w.requests ++ [IPFSClient.listRequest env group] := by
    cases group with
    | none =>
      obtain ⟨hreq, hres⟩ := IPFSClient.performCURLRequest_spec env
        (Config.PINATA_URL ++ "data/pinList") "GET" none w
      simp only [IPFSClient.listRequest] at hfail ⊢
      rw [if_pos hfail] at hres
      simp only [IPFSClient.listPins, hres, IPFSClient.deref]
      exact ⟨trivial, hreq⟩
    | some g =>
      obtain ⟨hreq, hres⟩ := IPFSClient.performCURLRequest_spec env
        (Config.PINATA_URL ++ "data/pinList" ++ ("?metadata[name]=" ++ g)) "GET" none w
      simp only [IPFSClient.listRequest] at hfail ⊢
      rw [if_pos hfail] at hres
      simp only [IPFSClient.listPins, hres, IPFSClient.deref]
      exact ⟨trivial, hreq⟩
  refine ⟨key.1, ?_, key.2⟩
  rw [key.1]
  exact fun hn => Option.noConfusion hn

/-- C11 at the failing input: `listPins(std::nullopt)` with a transport that
cannot connect; `deletePin` and `retrieveContent`, started in the same state
with the same transport, hand the transport error back. -/
theorem listPins_transport_failure_witness :
    (IPFSClient.listPins (Mock.env Mock.alwaysFails) none Mock.world).1 = none
    ∧ (IPFSClient.retrieveContent (Mock.env Mock.alwaysFails) "QmXYZ" Mock.world).1
        = Except.error (IPFSError.CURLFailure, "Couldn't connect to server")
    ∧ (IPFSClient.deletePin (Mock.env Mock.alwaysFails) "QmXYZ" Mock.world).1
        = Except.error (IPFSError.CURLFailure, "Couldn't connect to server") :=
  ⟨(listPins_transport_failure (Mock.env Mock.alwaysFails) none Mock.world
      (Nat.succ_ne_zero 6)).1, rfl, rfl⟩

end PinataPipe
